import Mathlib

/-!
# Session table, fan-out engine and command dispatch of `src/server_client/server.c`

The server keeps its sessions in the global array `client_info clients[MAX_CLIENTS]`
and talks to the outside through `send`, `close`, `printf` and `perror`.  The embedding
passes that global state explicitly as a `World`: the table, the ordered record of every
`send` call attempted, the sockets closed, and what was written to the console.  C strings
are the byte lists before their terminating NUL; string literals are the UTF-8 bytes of the
source file.  Every `pthread_mutex_lock`/`unlock` pair brackets a whole function body, so a
function of the embedding is one critical section executed atomically.
-/

namespace Server

/-- The macro `MAX_CLIENTS` (server.c line 12). -/
abbrev MAX_CLIENTS : Nat := 100

/-- The macro `BUFFER_SIZE` (server.c line 13). -/
abbrev BUFFER_SIZE : Nat := 1024

/-- The macro `NAME_SIZE` (server.c line 14). -/
abbrev NAME_SIZE : Nat := 32

/-- The contents of a C string: the bytes that precede its terminating NUL. -/
abbrev Bytes := List UInt8

/-- The bytes of a string literal of the (UTF-8 encoded) source file. -/
def utf8 (s : String) : Bytes := s.data.flatMap String.utf8EncodeChar

/-- What the conversion `%d` of `sprintf`/`printf` writes for an `int`. -/
def fmt_d (n : Int) : Bytes := utf8 (toString n)

/-- The part of `struct sockaddr_in` the server uses: the port and the four octets of
`sin_addr` in memory (network) order. -/
structure sockaddr_in where
  sin_port : Nat
  sin_addr : UInt8 × UInt8 × UInt8 × UInt8
deriving DecidableEq

/-- The libc function `inet_ntoa`: the dotted-decimal text of the four address octets. -/
def inet_ntoa (a : UInt8 × UInt8 × UInt8 × UInt8) : Bytes :=
  fmt_d a.1.toNat ++ utf8 "." ++ fmt_d a.2.1.toNat ++ utf8 "." ++
    fmt_d a.2.2.1.toNat ++ utf8 "." ++ fmt_d a.2.2.2.toNat

/-- The struct `client_info` (server.c lines 17-23).  The field `name` holds the C string
stored in `char name[NAME_SIZE]`. -/
structure client_info where
  socket : Int
  id : Int
  name : Bytes
  address : sockaddr_in
  active : Int
deriving DecidableEq

/-- A slot as `memset(clients, 0, sizeof(clients))` leaves it (server.c line 262). -/
def client_info.zero : client_info :=
  { socket := 0, id := 0, name := [], address := { sin_port := 0, sin_addr := (0, 0, 0, 0) },
    active := 0 }

/-- The global array `client_info clients[MAX_CLIENTS]` (server.c line 27). -/
abbrev Table := Fin MAX_CLIENTS → client_info

/-- The global state of the server process together with the effects it has had on its
environment.  The field `sends` lists every call `send(socket, data, strlen(data), 0)` in the
order made; `send_fails k` tells whether the call made after `k` earlier ones returns a
negative value. -/
structure World where
  clients : Table
  sends : List (Int × Bytes)
  closed : List Int
  console : List Bytes
  errors : List Bytes
  send_fails : Nat → Bool

/-- The state after `memset(clients, 0, sizeof(clients))` in `main`, before any connection. -/
def World.init (send_fails : Nat → Bool) : World :=
  { clients := fun _ => client_info.zero, sends := [], closed := [], console := [],
    errors := [], send_fails := send_fails }

/-- The libc call `send(socket, data, strlen(data), 0)`: the attempt is recorded; the value
returned is negative exactly when the environment makes this attempt fail. -/
def send (socket : Int) (data : Bytes) (w : World) : Int × World :=
  (if w.send_fails w.sends.length then -1 else (data.length : Int),
   { w with sends := w.sends ++ [(socket, data)] })

/-- The libc call `perror(msg)`. -/
def perror (msg : Bytes) (w : World) : World :=
  { w with errors := w.errors ++ [msg] }

/-- The libc call `printf` with its formatted text. -/
def printf (text : Bytes) (w : World) : World :=
  { w with console := w.console ++ [text] }

/-- The indices visited by `for (int i = 0; i < MAX_CLIENTS; i++)`, in order. -/
@[irreducible] def slots : List (Fin MAX_CLIENTS) := List.finRange MAX_CLIENTS

/-- The index at which a scan `for (i = 0; i < MAX_CLIENTS; i++) if (p(clients[i])) { ...; break; }`
runs its body, if any: the lowest index whose slot satisfies `p`. -/
def first_slot (p : client_info → Bool) (clients : Table) : Option (Fin MAX_CLIENTS) :=
  slots.find? (fun i => p (clients i))

/-- Function `broadcast_message` (server.c lines 40-50). -/
def broadcast_message (message : Bytes) (sender_id : Int) (w : World) : World :=
  slots.foldl (fun w i =>
    if (w.clients i).active ≠ 0 ∧ (w.clients i).id ≠ sender_id then
      let r := send (w.clients i).socket message w
      if r.1 < 0 then perror (utf8 "브로드캐스트 전송 실패") r.2 else r.2
    else w) w

/-- Function `send_to_client` (server.c lines 53-78). -/
def send_to_client (message : Bytes) (target_id sender_id : Int) (w : World) : World :=
  match first_slot (fun c => c.active != 0 && c.id == target_id) w.clients with
  | some i =>
    let r := send (w.clients i).socket message w
    if r.1 < 0 then perror (utf8 "개인 메시지 전송 실패") r.2 else r.2
  | none =>
    if sender_id > 0 then
      match first_slot (fun c => c.active != 0 && c.id == sender_id) w.clients with
      | some i =>
        (send (w.clients i).socket
          (utf8 "[시스템] 클라이언트 " ++ fmt_d target_id ++ utf8 "를 찾을 수 없습니다.\n") w).2
      | none => w
    else w

/-- The text `sprintf(temp, "ID: %d, 이름: %s, IP: %s\n", ...)` writes for one slot
(server.c lines 88-91). -/
def roster_entry (c : client_info) : Bytes :=
  utf8 "ID: " ++ fmt_d c.id ++ utf8 ", 이름: " ++ c.name ++ utf8 ", IP: " ++
    inet_ntoa c.address.sin_addr ++ utf8 "\n"

/-- Function `get_client_list` (server.c lines 81-100): the C string it leaves at `buffer`.
The function receives a bare pointer; whether the text fits is decided where the array is
declared, see `handle_line`. -/
def get_client_list (w : World) : Bytes :=
  let r := slots.foldl (fun (acc : Bytes × Int) i =>
    if (w.clients i).active ≠ 0 then (acc.1 ++ roster_entry (w.clients i), acc.2 + 1) else acc)
    (utf8 "\n=== 연결된 클라이언트 목록 ===\n", 0)
  r.1 ++ (utf8 "총 " ++ fmt_d r.2 ++ utf8 "명 접속 중\n")

/-- The record `add_client` writes into the free slot `i` (server.c lines 107-111). -/
def new_client (socket : Int) (address : sockaddr_in) (i : Fin MAX_CLIENTS) : client_info :=
  { socket := socket, address := address, active := 1, id := ((i : Nat) : Int) + 1,
    name := utf8 "User" ++ fmt_d (((i : Nat) : Int) + 1) }

/-- Function `add_client` (server.c lines 103-118): the value returned and the new state. -/
def add_client (socket : Int) (address : sockaddr_in) (w : World) : Int × World :=
  match first_slot (fun c => c.active == 0) w.clients with
  | some i =>
    (((i : Nat) : Int), { w with clients := Function.update w.clients i (new_client socket address i) })
  | none => (-1, w)

/-- Function `remove_client` (server.c lines 121-126).  Its callers pass a slot index that
`add_client` returned, which the type of `index` records. -/
def remove_client (index : Fin MAX_CLIENTS) (w : World) : World :=
  let c : client_info := { (w.clients index) with active := 0 }
  { w with clients := Function.update w.clients index c, closed := w.closed ++ [c.socket] }

/-- The test `strncmp(s, lit, n) == 0` on two C strings: they agree on their first `n` bytes. -/
def strncmp_eq (s lit : Bytes) (n : Nat) : Bool := s.take n == lit.take n

/-- The libc predicate `isspace` in the C locale. -/
def isspace (b : UInt8) : Bool := b == 32 || (9 ≤ b && b ≤ 13)

/-- The libc predicate `isdigit`. -/
def isdigit (b : UInt8) : Bool := 48 ≤ b && b ≤ 57

/-- The number a run of decimal digits denotes. -/
def digits_value (ds : Bytes) : Nat := ds.foldl (fun v d => 10 * v + (d.toNat - 48)) 0

/-- Outcomes of `sscanf(s, "%d %[^\n]", &target_id, msg_content)`: `both` when the call
returns 2, `fewer` when it returns anything else (EOF, 0 or 1), and `undefined` when the
digits read by `%d` denote a number that an `int` cannot hold. -/
inductive Scanned where
  | undefined : Scanned
  | fewer : Scanned
  | both (target_id : Int) (msg_content : Bytes) : Scanned
deriving DecidableEq

/-- The libc call `sscanf(s, "%d %[^\n]", &target_id, msg_content)` (server.c line 201):
`%d` skips white space and reads an optional sign and a run of digits, the blank of the
format skips any white space, and `%[^\n]` reads a non-empty run of bytes other than newline. -/
def sscanf_id_text (s : Bytes) : Scanned :=
  let s1 := s.dropWhile isspace
  let neg := s1.head? == some 45
  let s2 := if s1.head? == some 45 || s1.head? == some 43 then s1.drop 1 else s1
  let ds := s2.takeWhile isdigit
  if ds = [] then Scanned.fewer
  else
    let n : Int := if neg then -(digits_value ds : Int) else (digits_value ds : Int)
    if n < -2147483648 ∨ 2147483647 < n then Scanned.undefined
    else
      let text := ((s2.dropWhile isdigit).dropWhile isspace).takeWhile (fun b => b != 10)
      if text = [] then Scanned.fewer else Scanned.both n text

/-- The write `strncpy(client->name, buffer + 6, NAME_SIZE - 1); client->name[NAME_SIZE - 1] = 0`
of the `/name` branch (server.c lines 184-185), with `new_name` the bytes copied. -/
def set_name (index : Fin MAX_CLIENTS) (new_name : Bytes) (w : World) : World :=
  let renamed : client_info := { (w.clients index) with name := new_name }
  { w with clients := Function.update w.clients index renamed }

/-- The body of the receive loop of `handle_client` once the line has been cut out of the
received bytes (server.c lines 171-236), run by the worker of slot `index` on the C string
`buffer`.  The result is `none` where C leaves the behaviour undefined: when the roster
that `get_client_list` writes does not fit `char list_buffer[1024]`, and when `%d` reads a
number that does not fit an `int`.  Otherwise it is the new state together with the flag
telling whether the loop is left (`break`).  The other destination arrays hold any text
built from a line of at most `BUFFER_SIZE - 1` bytes and a name of at most `NAME_SIZE - 1`
bytes. -/
def handle_line (index : Fin MAX_CLIENTS) (buffer : Bytes) (w : World) : Option (Bool × World) :=
  let w := printf (buffer ++ utf8 "\n") w
  let client := w.clients index
  if buffer.head? = some 47 then
    if strncmp_eq buffer (utf8 "/quit") 5 then
      some (true, printf (utf8 "[클라이언트 " ++ fmt_d client.id ++ utf8 "] 연결 종료 요청\n") w)
    else if strncmp_eq buffer (utf8 "/name ") 6 then
      let old_name := client.name
      let new_name := (buffer.drop 6).take (NAME_SIZE - 1)
      let w1 := set_name index new_name w
      let name_msg := utf8 "[시스템] " ++ old_name ++ utf8 "님이 이름을 " ++ new_name ++
        utf8 "(으)로 변경했습니다.\n"
      some (false, broadcast_message name_msg (-1) w1)
    else if strncmp_eq buffer (utf8 "/list") 5 then
      let list_buffer := get_client_list w
      if list_buffer.length < 1024 then some (false, (send client.socket list_buffer w).2)
      else none
    else if strncmp_eq buffer (utf8 "/msg ") 5 then
      match sscanf_id_text (buffer.drop 5) with
      | Scanned.undefined => none
      | Scanned.both target_id msg_content =>
        let private_msg := utf8 "[귓속말 from " ++ client.name ++ utf8 "(ID:" ++ fmt_d client.id ++
          utf8 ")] " ++ msg_content ++ utf8 "\n"
        let w1 := send_to_client private_msg target_id client.id w
        let confirm_msg := utf8 "[귓속말 to ID:" ++ fmt_d target_id ++ utf8 "] " ++ msg_content ++
          utf8 "\n"
        some (false, (send client.socket confirm_msg w1).2)
      | Scanned.fewer =>
        some (false, (send client.socket (utf8 "[시스템] 사용법: /msg <ID> <메시지>\n") w).2)
    else if strncmp_eq buffer (utf8 "/all ") 5 then
      let broadcast_msg := utf8 "[전체] " ++ client.name ++ utf8 "(ID:" ++ fmt_d client.id ++
        utf8 "): " ++ buffer.drop 5 ++ utf8 "\n"
      let w1 := broadcast_message broadcast_msg client.id w
      some (false, (send client.socket broadcast_msg w1).2)
    else
      some (false, (send client.socket
        (utf8 "[시스템] 알 수 없는 명령어입니다. /help로 도움말을 확인하세요.\n") w).2)
  else
    some (false, broadcast_message (buffer ++ utf8 "\n") client.id w)

/-- The C string left in `buffer` after `buffer[bytes_received] = 0` and the replacement of
the first newline by NUL (server.c lines 165-169): the received bytes up to the first NUL
or newline. -/
def strip_line (chunk : Bytes) : Bytes := chunk.takeWhile (fun b => b != 0 && b != 10)

/-- One iteration of the receive loop on the bytes one `recv` stored (server.c lines 165-236). -/
def handle_chunk (index : Fin MAX_CLIENTS) (chunk : Bytes) (w : World) : Option (Bool × World) :=
  handle_line index (strip_line chunk) w

/-- The results of the successive calls `recv(client->socket, buffer, BUFFER_SIZE - 1, 0)`:
a chunk of the bytes stored (their number is the value returned), or a return of zero
(`closed`) or of a negative value (`error`). -/
inductive Recv where
  | data (chunk : Bytes) : Recv
  | closed : Recv
  | error : Recv

/-- The receive loop of `handle_client` (server.c lines 164-237) run on the successive
results of `recv`; when the results run out the peer is taken to have closed. -/
def recv_loop (index : Fin MAX_CLIENTS) : List Recv → World → Option World
  | [], w => some w
  | Recv.closed :: _, w => some w
  | Recv.error :: _, w => some w
  | Recv.data chunk :: rest, w =>
    if 0 < chunk.length then
      match handle_chunk index chunk w with
      | none => none
      | some (true, w1) => some w1
      | some (false, w1) => recv_loop index rest w1
    else some w

/-- Function `handle_client` (server.c lines 129-251), the Session Worker of slot `index`,
run on the successive results of `recv`. -/
def handle_client (index : Fin MAX_CLIENTS) (recvs : List Recv) (w : World) : Option World :=
  let client := w.clients index
  let w1 := printf (utf8 "[클라이언트 " ++ fmt_d client.id ++ utf8 "] 연결됨 - IP: " ++
    inet_ntoa client.address.sin_addr ++ utf8 ", Port: " ++ fmt_d client.address.sin_port ++
    utf8 "\n") w
  let welcome_msg := utf8 "\n=== 채팅 서버에 오신 것을 환영합니다! ===\n당신의 ID: " ++
    fmt_d client.id ++ utf8 ", 이름: " ++ client.name ++
    utf8 "\n\n[명령어]\n/name <이름> - 이름 변경\n/list - 접속자 목록\n" ++
    utf8 "/msg <ID> <메시지> - 개인 메시지\n/all <메시지> - 전체 메시지\n/quit - 종료\n" ++
    utf8 "그 외 입력은 모두에게 전송됩니다.\n=====================================\n"
  let w2 := (send client.socket welcome_msg w1).2
  let join_msg := utf8 "[시스템] " ++ client.name ++ utf8 "(ID:" ++ fmt_d client.id ++
    utf8 ")님이 입장하셨습니다.\n"
  let w3 := broadcast_message join_msg client.id w2
  match recv_loop index recvs w3 with
  | none => none
  | some w4 =>
    let last := w4.clients index
    let w5 := printf (utf8 "[클라이언트 " ++ fmt_d last.id ++ utf8 "] " ++ last.name ++
      utf8 " 연결 종료\n") w4
    let leave_msg := utf8 "[시스템] " ++ last.name ++ utf8 "(ID:" ++ fmt_d last.id ++
      utf8 ")님이 퇴장하셨습니다.\n"
    some (remove_client index (broadcast_message leave_msg last.id w5))

/-- The session tables the server can be in: those reached from the table `main` clears
by calls of `add_client` and `remove_client` and by `/name` lines handled for a slot. -/
inductive Reachable : World → Prop where
  | init (send_fails : Nat → Bool) : Reachable (World.init send_fails)
  | add (socket : Int) (address : sockaddr_in) (w : World) :
      Reachable w → Reachable (add_client socket address w).2
  | remove (index : Fin MAX_CLIENTS) (w : World) :
      Reachable w → Reachable (remove_client index w)
  | rename (index : Fin MAX_CLIENTS) (text : Bytes) (w : World) (r : Bool × World) :
      Reachable w → handle_line index (utf8 "/name " ++ text) w = some r → Reachable r.2

/-- A peer address used in the examples: 127.0.0.1, port 5000. -/
def example_address : sockaddr_in := { sin_port := 5000, sin_addr := (127, 0, 0, 1) }

/-- Two sessions registered on the cleared table: A in slot 0 (socket 4, id 1, `User1`) and
B in slot 1 (socket 5, id 2, `User2`), every `send` succeeding. -/
def two_clients : World :=
  (add_client 5 example_address (add_client 4 example_address (World.init (fun _ => false))).2).2

/-- A full table: every slot holds the record `add_client` writes there (sockets 4, 5, and
so on), as after `MAX_CLIENTS` connections. -/
def full_world : World :=
  { World.init (fun _ => false) with
    clients := fun i => new_client (4 + ((i : Nat) : Int)) example_address i }

/-- The state after `n` connections from `example_address` were registered by `add_client`
on the cleared table, on sockets 4, 5, and so on. -/
def connect : Nat → World
  | 0 => World.init (fun _ => false)
  | n + 1 => (add_client (4 + (n : Int)) example_address (connect n)).2

/-- The records of the active slots in slot order: what the loop of `get_client_list` lists. -/
def active_clients (clients : Table) : List client_info :=
  (slots.filter (fun i => (clients i).active != 0)).map clients

/-- Number of slots of the table whose `active` flag is set. -/
def active_count (clients : Table) : Nat := (slots.filter (fun i => (clients i).active != 0)).length

/-- The receive results at which the loop of `handle_client` is left: a return of zero or of
a negative value, and a chunk whose line begins with `/quit` (server.c lines 164 and 176-178). -/
def ends_loop : Recv → Bool
  | Recv.closed => true
  | Recv.error => true
  | Recv.data chunk => chunk.length == 0 || strncmp_eq (strip_line chunk) (utf8 "/quit") 5

/-- The lines the receive loop of `handle_client` hands to the dispatch (server.c lines
164-175): one per chunk received, the bytes of the chunk up to its first NUL or newline, until a
result that ends the loop. -/
def chunk_lines : List Recv → List Bytes
  | [] => []
  | Recv.closed :: _ => []
  | Recv.error :: _ => []
  | Recv.data chunk :: rest =>
    if 0 < chunk.length then
      strip_line chunk ::
        (if strncmp_eq (strip_line chunk) (utf8 "/quit") 5 then [] else chunk_lines rest)
    else []

/-- The dispatch of a list of lines in order, left at the first line that breaks the loop. -/
def run_lines (index : Fin MAX_CLIENTS) : List Bytes → World → Option World
  | [], w => some w
  | line :: rest, w =>
    match handle_line index line w with
    | none => none
    | some (true, w1) => some w1
    | some (false, w1) => run_lines index rest w1

/-- The bytes of the chunks received, one after the other: the byte stream the peer sent. -/
def recv_stream : List Recv → Bytes
  | [] => []
  | Recv.data chunk :: rest => chunk ++ recv_stream rest
  | _ :: _ => []

/-- Reading of the wire protocol in the specification: the newline-terminated lines of a byte
stream, each without its newline; bytes after the last newline belong to no line yet.  The
second argument holds the bytes of the line being read. -/
def stream_lines_from : Bytes → Bytes → List Bytes
  | [], _ => []
  | b :: rest, line =>
    if b = 10 then line :: stream_lines_from rest [] else stream_lines_from rest (line ++ [b])

/-- Reading of the wire protocol in the specification: the newline-terminated lines of a byte
stream. -/
def stream_lines (stream : Bytes) : List Bytes := stream_lines_from stream []

end Server

/-!
# Input Coordinator and client loops of `src/device_driver/keypad.c` and
`src/server_client/client.c`

The globals `input_buf`, `idx`, `is_send`, `keepRunning` (keypad.c) and `running` (client.c)
are passed explicitly as a `State`, together with what the client wrote to the LCD device, to its
socket and to its terminal.  One iteration of a loop is one atomic step of the embedding; the
interleaving of the three threads is a sequence of such steps.
-/

namespace Client

/-- The key code `SEND`, the character `v` (keypad.h line 76). -/
def SEND : UInt8 := 118

/-- The key code `END_SIGN`, the character `e` (keypad.h line 77). -/
def END_SIGN : UInt8 := 101

/-- The globals of keypad.c (lines 32-38) and client.c (line 16) with the effects of the client
on its environment: the writes to the LCD device, the messages passed to `send` on the client
socket, and the terminal output. -/
structure State where
  input_buf : Fin 17 → UInt8
  idx : Int
  is_send : Int
  keepRunning : Int
  running : Int
  lcd : List (List UInt8)
  sent : List (List UInt8)
  console : List (List UInt8)

/-- The state when `main` starts: `input_buf = {0}`, `idx = 0`, `is_send = 0`,
`keepRunning = 1`, `running = 1`. -/
def State.init : State :=
  { input_buf := fun _ => 0, idx := 0, is_send := 0, keepRunning := 1, running := 1,
    lcd := [], sent := [], console := [] }

/-- The 17 bytes of `input_buf` in order. -/
def buf_bytes (buf : Fin 17 → UInt8) : List UInt8 := (List.finRange 17).map buf

/-- The C string in `input_buf` as `strlen` and `send` read it: the bytes before the first
NUL; reading is undefined when the array holds no NUL. -/
def c_string (buf : Fin 17 → UInt8) : Option (List UInt8) :=
  if (0 : UInt8) ∈ buf_bytes buf then some ((buf_bytes buf).takeWhile (fun b => b != 0)) else none

/-- The bytes `strncpy(buffer + 1, str, 16)` copies from the memory at `str`: at most 16, up to
the first NUL. -/
def strncpy16 (str : List UInt8) : List UInt8 := (str.take 16).takeWhile (fun b => b != 0)

/-- Function `lcd_write_line1` (keypad.c lines 175-184) on the bytes found at `str`: the line
indicator `0` and at most 16 bytes are written to the device. -/
def lcd_write_line1 (str : List UInt8) (s : State) : State :=
  { s with lcd := s.lcd ++ [48 :: strncpy16 str] }

/-- Function `lcd_write_line2` (keypad.c lines 202-211) on the bytes found at `str`: the line
indicator `1` and at most 16 bytes are written to the device. -/
def lcd_write_line2 (str : List UInt8) (s : State) : State :=
  { s with lcd := s.lcd ++ [49 :: strncpy16 str] }

/-- Function `lcd_clear_line2` (keypad.c lines 216-223): the line indicator `1` and 16 blanks
are written to the device. -/
def lcd_clear_line2 (s : State) : State :=
  { s with lcd := s.lcd ++ [49 :: List.replicate 16 32] }

/-- Function `clear_keypad_str` (keypad.c lines 230-235). -/
def clear_keypad_str (s : State) : State :=
  lcd_clear_line2 { s with input_buf := fun _ => 0, idx := 0, is_send := 0 }

/-- The body of the loop of `keypad_thread` for one result `key` of `keypadScan`, zero when no
key was released (keypad.c lines 249-274).  The result is `none` where the write
`input_buf[idx++] = key` would fall outside the array (a negative `idx`). -/
def keypad_step (key : UInt8) (s : State) : Option State :=
  if key ≠ 0 then
    if key = SEND ∨ s.idx ≥ 16 then some { s with is_send := 1 }
    else if 48 ≤ key ∧ key ≤ 57 then
      if s.idx < 16 then
        if h : 0 ≤ s.idx ∧ s.idx < 16 then
          let i : Fin 17 := ⟨s.idx.toNat, by omega⟩
          let i1 : Fin 17 := ⟨s.idx.toNat + 1, by omega⟩
          let buf := Function.update (Function.update s.input_buf i key) i1 0
          some (lcd_write_line2 (buf_bytes buf) { s with input_buf := buf, idx := s.idx + 1 })
        else none
      else some s
    else if key = END_SIGN then some { s with keepRunning := 0 }
    else some s
  else some s

/-- Function `keypad_thread` (keypad.c lines 247-277) run on the successive results of
`keypadScan`.  The flag returned tells whether the function has returned (the loop found
`keepRunning` zero) or is still looping when the results run out. -/
def keypad_thread : List UInt8 → State → Option (State × Bool)
  | [], s => some (s, s.keepRunning == 0)
  | key :: rest, s =>
    if s.keepRunning ≠ 0 then
      match keypad_step key s with
      | none => none
      | some s1 => keypad_thread rest s1
    else some (s, true)

/-- One iteration of the send loop of `main` (client.c lines 140-161); `send_ok` tells whether
`send` succeeds.  The flag returned tells whether the loop goes on to a next iteration.  The
result is `none` when `strlen(input_buf)` would read past the array. -/
def send_loop_step (send_ok : Bool) (s : State) : Option (State × Bool) :=
  if s.running ≠ 0 then
    if s.is_send ≠ 0 then
      match c_string s.input_buf with
      | none => none
      | some message =>
        let s1 := { s with sent := s.sent ++ [message] }
        if send_ok then
          let s2 := clear_keypad_str s1
          if s2.keepRunning = 0 then
            some ({ s2 with running := 0,
                            console := s2.console ++ [Server.utf8 "연결을 종료합니다...\n"] }, false)
          else some (s2, true)
        else some ({ s1 with console := s1.console ++ [Server.utf8 "전송 실패"] }, false)
    else if s.keepRunning = 0 then
      some ({ s with running := 0,
                     console := s.console ++ [Server.utf8 "연결을 종료합니다...\n"] }, false)
    else some (s, true)
  else some (s, false)

/-- The loop of `receive_messages` (client.c lines 34-50) run on the successive results of
`recv`.  The second argument and the second component of the result are the local variable
`bytes_received`, `none` while it has never been assigned.  When the results run out the
server is taken to have closed. -/
def receive_loop : List Server.Recv → Option Int → State → State × Option Int
  | [], bytes_received, s => if s.running ≠ 0 then (s, some 0) else (s, bytes_received)
  | r :: rest, bytes_received, s =>
    if s.running ≠ 0 then
      match r with
      | Server.Recv.data chunk =>
        if 0 < chunk.length then
          let text := chunk.takeWhile (fun b => b != 0)
          let s1 := { s with console := s.console ++ [13 :: text, Server.utf8 "> "] }
          let s2 := if chunk.length > 16 then s1 else lcd_write_line1 chunk s1
          receive_loop rest (some (chunk.length : Int)) s2
        else (s, some 0)
      | Server.Recv.closed => (s, some 0)
      | Server.Recv.error => (s, some (-1))
    else (s, bytes_received)

/-- Function `receive_messages` (client.c lines 29-61) run on the successive results of `recv`.
The result is `none` when the loop is left before `recv` was ever called: line 52 then reads
`bytes_received` uninitialised. -/
def receive_messages (recvs : List Server.Recv) (s : State) : Option State :=
  match receive_loop recvs none s with
  | (_, none) => none
  | (s1, some n) =>
    let s2 :=
      if n = 0 then
        { s1 with console := s1.console ++ [Server.utf8 "\n서버와의 연결이 종료되었습니다.\n"] }
      else if n < 0 ∧ s1.running ≠ 0 then
        { s1 with console := s1.console ++ [Server.utf8 "\n수신 오류"] }
      else s1
    some { s2 with running := 0,
                   console := s2.console ++ [Server.utf8 "\n클라이언트를 종료합니다...\n"] }

/-- The statements of `main` between its loop and `pthread_join(keypad_tid, NULL)` (client.c
lines 163-169): `running = 0`, and the socket is shut down and closed. -/
def main_cleanup (s : State) : State :=
  { s with running := 0,
           console := s.console ++ [Server.utf8 "while 탈출\n", Server.utf8 "소켓 닫기 완료\n"] }

/-- The Input Coordinator states of the client: those reached from the initial state by
iterations of the loop of `keypad_thread` on any key and by calls of `clear_keypad_str`. -/
inductive Reachable : State → Prop where
  | init : Reachable State.init
  | key (key : UInt8) (s s1 : State) : Reachable s → keypad_step key s = some s1 → Reachable s1
  | clear (s : State) : Reachable s → Reachable (clear_keypad_str s)

/-- The keys `1234567890123456` and a seventeenth digit `7`. -/
def seventeen_digits : List UInt8 :=
  [49, 50, 51, 52, 53, 54, 55, 56, 57, 48, 49, 50, 51, 52, 53, 54, 55]

/-- The state the producer is in after the keys `1`, `2`, `3` pressed from the initial state. -/
def typed_123 : State :=
  match keypad_thread [49, 50, 51] State.init with
  | some r => r.1
  | none => State.init

end Client

namespace Server

/-! ## Scanning the table -/

/-- Every slot index is visited by the loop. -/
theorem mem_slots (i : Fin MAX_CLIENTS) : i ∈ slots := by
  unfold slots; exact List.mem_finRange i

/-- The loop visits the slot indices in increasing order. -/
theorem slots_pairwise : List.Pairwise (· < ·) slots := by
  unfold slots; exact List.pairwise_lt_finRange _

/-- The loop visits `MAX_CLIENTS` indices. -/
theorem slots_length : slots.length = MAX_CLIENTS := by
  unfold slots; exact List.length_finRange _

/-- A scan finds nothing exactly when no slot satisfies the test. -/
theorem first_slot_eq_none_iff (p : client_info → Bool) (t : Table) :
    first_slot p t = none ↔ ∀ i, p (t i) = false := by
  simp [first_slot, mem_slots]

/-- A scan stops at `i` exactly when slot `i` satisfies the test and no lower slot does. -/
theorem first_slot_eq_some_iff (p : client_info → Bool) (t : Table) (i : Fin MAX_CLIENTS) :
    first_slot p t = some i ↔ p (t i) = true ∧ ∀ j, j < i → p (t j) = false := by
  unfold first_slot
  rw [List.find?_eq_some]
  constructor
  · rintro ⟨hp, as, bs, hsplit, has⟩
    refine ⟨hp, fun j hj => ?_⟩
    have hpw : List.Pairwise (· < ·) (as ++ i :: bs) := by
      rw [← hsplit]; exact slots_pairwise
    have hj_mem : j ∈ as ++ i :: bs := by rw [← hsplit]; exact mem_slots j
    rw [List.pairwise_append] at hpw
    rcases List.mem_append.1 hj_mem with hja | hjb
    · simpa using has j hja
    · rcases List.mem_cons.1 hjb with rfl | hjb
      · exact absurd hj (lt_irrefl _)
      · have := (List.pairwise_cons.1 hpw.2.1).1 j hjb
        exact absurd hj (lt_asymm this)
  · rintro ⟨hp, hlow⟩
    refine ⟨hp, ?_⟩
    obtain ⟨as, bs, hsplit⟩ := List.append_of_mem (mem_slots i)
    refine ⟨as, bs, hsplit, fun a ha => ?_⟩
    have hpw : List.Pairwise (· < ·) (as ++ i :: bs) := by
      rw [← hsplit]; exact slots_pairwise
    rw [List.pairwise_append] at hpw
    have : a < i := hpw.2.2 a ha i (List.mem_cons_self _ _)
    simp [hlow a this]

/-- A scan stops somewhere as soon as one slot satisfies the test. -/
theorem first_slot_exists (p : client_info → Bool) (t : Table) (k : Fin MAX_CLIENTS)
    (hk : p (t k) = true) : ∃ i, first_slot p t = some i := by
  cases h : first_slot p t with
  | none => rw [first_slot_eq_none_iff] at h; simp [h k] at hk
  | some i => exact ⟨i, rfl⟩

/-! ## `add_client`: table effect (C2) and return value (C3) -/

/-- What `add_client` does when its scan stops at the free slot `i`. -/
theorem add_client_of_some (socket : Int) (address : sockaddr_in) (w : World)
    (i : Fin MAX_CLIENTS) (h : first_slot (fun c => c.active == 0) w.clients = some i) :
    add_client socket address w =
      (((i : Nat) : Int),
        { w with clients := Function.update w.clients i (new_client socket address i) }) := by
  simp only [add_client, h]

/-- What `add_client` does when its scan finds no free slot. -/
theorem add_client_of_none (socket : Int) (address : sockaddr_in) (w : World)
    (h : first_slot (fun c => c.active == 0) w.clients = none) :
    add_client socket address w = (-1, w) := by
  simp only [add_client, h]

/-- The scan of `add_client` stops at the lowest-index inactive slot. -/
theorem first_free_iff (t : Table) (i : Fin MAX_CLIENTS) :
    first_slot (fun c => c.active == 0) t = some i ↔
      (t i).active = 0 ∧ ∀ j, j < i → (t j).active ≠ 0 := by
  rw [first_slot_eq_some_iff]; simp

/-- The scan of `add_client` finds nothing exactly when every slot is active. -/
theorem no_free_iff (t : Table) :
    first_slot (fun c => c.active == 0) t = none ↔ ∀ i, (t i).active ≠ 0 := by
  rw [first_slot_eq_none_iff]; simp

/-- Claim C2: table effect of insert.  For every session table, if some slot is inactive then
`add_client socket address` writes into the lowest-index inactive slot `i` the given socket and
address, id `i + 1`, the name `User` followed by the decimal id and `active = 1`, and leaves
every other slot unchanged; if no slot is inactive the table is left unchanged. -/
theorem add_client_table_effect (socket : Int) (address : sockaddr_in) (w : World) :
    ((∃ k, (w.clients k).active = 0) →
      ∃ i : Fin MAX_CLIENTS, (w.clients i).active = 0 ∧ (∀ j, j < i → (w.clients j).active ≠ 0) ∧
        (add_client socket address w).2.clients i =
          { socket := socket, id := ((i : Nat) : Int) + 1,
            name := utf8 "User" ++ fmt_d (((i : Nat) : Int) + 1), address := address,
            active := 1 } ∧
        ∀ j, j ≠ i → (add_client socket address w).2.clients j = w.clients j) ∧
    ((∀ k, (w.clients k).active ≠ 0) → (add_client socket address w).2.clients = w.clients) := by
  constructor
  · rintro ⟨k, hk⟩
    obtain ⟨i, hi⟩ := first_slot_exists (fun c => c.active == 0) w.clients k (by simp [hk])
    have hfree := (first_free_iff _ _).1 hi
    refine ⟨i, hfree.1, hfree.2, ?_, ?_⟩
    · rw [add_client_of_some socket address w i hi]; simp [new_client]
    · intro j hj
      rw [add_client_of_some socket address w i hi]; simp [Function.update_noteq hj]
  · intro hall
    rw [add_client_of_none socket address w ((no_free_iff _).2 hall)]

/-- Claim C2 at concrete tables: on the cleared table the insert fills the lowest free slot, and on
a full table it changes nothing. -/
theorem add_client_table_effect_witness :
    ((∃ k, ((World.init (fun _ => false)).clients k).active = 0) ∧
      ∃ i : Fin MAX_CLIENTS, ((World.init (fun _ => false)).clients i).active = 0 ∧
        (∀ j, j < i → ((World.init (fun _ => false)).clients j).active ≠ 0) ∧
        (add_client 4 example_address (World.init (fun _ => false))).2.clients i =
          { socket := 4, id := ((i : Nat) : Int) + 1,
            name := utf8 "User" ++ fmt_d (((i : Nat) : Int) + 1), address := example_address,
            active := 1 } ∧
        ∀ j, j ≠ i → (add_client 4 example_address (World.init (fun _ => false))).2.clients j =
          (World.init (fun _ => false)).clients j) ∧
    ((∀ k, (full_world.clients k).active ≠ 0) ∧
      (add_client 4 example_address full_world).2.clients = full_world.clients) :=
  ⟨⟨⟨0, rfl⟩,
      (add_client_table_effect 4 example_address (World.init (fun _ => false))).1 ⟨0, rfl⟩⟩,
    ⟨fun _ => by simp [full_world, new_client],
      (add_client_table_effect 4 example_address full_world).2
        (fun _ => by simp [full_world, new_client])⟩⟩

/-- Claim C3 as stated fails: on the cleared table `add_client` registers a session in slot 0 with
id 1 and returns 0, which is the slot index and not the id of that session. -/
theorem add_client_returns_index_not_id :
    ((World.init (fun _ => false)).clients 0).active = 0 ∧
    (add_client 4 example_address (World.init (fun _ => false))).1 = 0 ∧
    ((add_client 4 example_address (World.init (fun _ => false))).2.clients 0).active = 1 ∧
    ((add_client 4 example_address (World.init (fun _ => false))).2.clients 0).socket = 4 ∧
    ((add_client 4 example_address (World.init (fun _ => false))).2.clients 0).id = 1 := by
  with_unfolding_all decide

/-- Claim C3 amended: `add_client` returns -1 exactly when every slot is active before the call;
otherwise it returns the slot index `i` of the session it has just registered, and the id of
that session is the returned value plus one. -/
theorem add_client_return_value (socket : Int) (address : sockaddr_in) (w : World) :
    ((add_client socket address w).1 = -1 ↔ ∀ k, (w.clients k).active ≠ 0) ∧
    ((add_client socket address w).1 ≠ -1 →
      ∃ i : Fin MAX_CLIENTS, (add_client socket address w).1 = ((i : Nat) : Int) ∧
        (w.clients i).active = 0 ∧
        ((add_client socket address w).2.clients i).active = 1 ∧
        ((add_client socket address w).2.clients i).socket = socket ∧
        ((add_client socket address w).2.clients i).id = (add_client socket address w).1 + 1) := by
  cases h : first_slot (fun c => c.active == 0) w.clients with
  | none =>
    rw [add_client_of_none socket address w h]
    have := (no_free_iff _).1 h
    simp [this]
  | some i =>
    rw [add_client_of_some socket address w i h]
    have hfree := (first_free_iff _ _).1 h
    refine ⟨?_, fun _ => ⟨i, rfl, hfree.1, by simp [new_client]⟩⟩
    constructor
    · intro hneg
      simp only at hneg
      omega
    · intro hall
      exact absurd hfree.1 (hall i)

/-- Claim C3 amended at the cleared table: the value returned is not -1 and is the index of the
slot registered, one less than its id. -/
theorem add_client_return_value_witness :
    (add_client 4 example_address (World.init (fun _ => false))).1 ≠ -1 ∧
    ∃ i : Fin MAX_CLIENTS,
      (add_client 4 example_address (World.init (fun _ => false))).1 = ((i : Nat) : Int) ∧
      ((World.init (fun _ => false)).clients i).active = 0 ∧
      ((add_client 4 example_address (World.init (fun _ => false))).2.clients i).active = 1 ∧
      ((add_client 4 example_address (World.init (fun _ => false))).2.clients i).socket = 4 ∧
      ((add_client 4 example_address (World.init (fun _ => false))).2.clients i).id =
        (add_client 4 example_address (World.init (fun _ => false))).1 + 1 :=
  ⟨by with_unfolding_all decide,
    (add_client_return_value 4 example_address (World.init (fun _ => false))).2
      (by with_unfolding_all decide)⟩

/-! ## `broadcast_message` -/

/-- The loop of `broadcast_message` run over any list of indices: it appends one send per
index whose slot is active with an id other than `sender_id`, and touches nothing else. -/
theorem broadcast_fold (message : Bytes) (sender_id : Int) (l : List (Fin MAX_CLIENTS))
    (w : World) :
    let w2 := l.foldl (fun w i =>
      if (w.clients i).active ≠ 0 ∧ (w.clients i).id ≠ sender_id then
        let r := send (w.clients i).socket message w
        if r.1 < 0 then perror (utf8 "브로드캐스트 전송 실패") r.2 else r.2
      else w) w
    w2.clients = w.clients ∧ w2.closed = w.closed ∧ w2.console = w.console ∧
    w2.send_fails = w.send_fails ∧
    w2.sends = w.sends ++
      (l.filter (fun i => decide ((w.clients i).active ≠ 0 ∧ (w.clients i).id ≠ sender_id))).map
        (fun i => ((w.clients i).socket, message)) := by
  induction l generalizing w with
  | nil => simp
  | cons i l ih =>
    simp only [List.foldl_cons]
    by_cases hc : (w.clients i).active ≠ 0 ∧ (w.clients i).id ≠ sender_id
    · rw [if_pos hc]
      by_cases hf : (send (w.clients i).socket message w).1 < 0
      · simp only [hf, if_true]
        obtain ⟨h1, h2, h3, h4, h5⟩ := ih (perror (utf8 "브로드캐스트 전송 실패")
          (send (w.clients i).socket message w).2)
        simp only [perror, send] at h1 h2 h3 h4 h5
        simp only [perror, send]
        refine ⟨h1, h2, h3, h4, ?_⟩
        rw [h5, List.filter_cons_of_pos (by simpa using hc)]
        simp
      · simp only [hf, if_false]
        obtain ⟨h1, h2, h3, h4, h5⟩ := ih (send (w.clients i).socket message w).2
        simp only [send] at h1 h2 h3 h4 h5
        simp only [send]
        refine ⟨h1, h2, h3, h4, ?_⟩
        rw [h5, List.filter_cons_of_pos (by simpa using hc)]
        simp
    · rw [if_neg hc]
      obtain ⟨h1, h2, h3, h4, h5⟩ := ih w
      refine ⟨h1, h2, h3, h4, ?_⟩
      rw [h5, List.filter_cons_of_neg (by simpa using hc)]

/-- Function `broadcast_message` leaves the table unchanged. -/
theorem broadcast_message_clients (message : Bytes) (sender_id : Int) (w : World) :
    (broadcast_message message sender_id w).clients = w.clients :=
  (broadcast_fold message sender_id slots w).1

/-- The sends `broadcast_message` makes, in slot order. -/
theorem broadcast_message_sends (message : Bytes) (sender_id : Int) (w : World) :
    (broadcast_message message sender_id w).sends = w.sends ++
      (slots.filter (fun i => decide ((w.clients i).active ≠ 0 ∧ (w.clients i).id ≠ sender_id))).map
        (fun i => ((w.clients i).socket, message)) :=
  (broadcast_fold message sender_id slots w).2.2.2.2

/-! ## The `/name` branch of the dispatch -/

/-- Bytes beyond the compared length do not affect `strncmp`. -/
theorem strncmp_eq_append (a text b : Bytes) (n : Nat) (h : n ≤ a.length) :
    strncmp_eq (a ++ text) b n = strncmp_eq a b n := by
  simp [strncmp_eq, List.take_append_of_le_length h]

/-- The first byte of a line that starts with a non-empty literal. -/
theorem head?_append_of_ne_nil (a text : Bytes) (h : a ≠ []) : (a ++ text).head? = a.head? := by
  cases a with
  | nil => exact absurd rfl h
  | cons x xs => rfl

/-- Skipping a literal at the start of a line leaves what follows it. -/
theorem drop_append_length (a text : Bytes) (n : Nat) (h : a.length = n) :
    (a ++ text).drop n = text := by
  subst h; simp

/-- The dispatch of a line `/name <text>`: the name of the slot becomes the first 31 bytes of
the text and the notice is broadcast with excluded id -1. -/
theorem handle_line_name (index : Fin MAX_CLIENTS) (text : Bytes) (w : World) :
    handle_line index (utf8 "/name " ++ text) w =
      some (false, broadcast_message
        (utf8 "[시스템] " ++ (w.clients index).name ++ utf8 "님이 이름을 " ++ text.take 31 ++
          utf8 "(으)로 변경했습니다.\n") (-1)
        (set_name index (text.take 31) (printf (utf8 "/name " ++ text ++ utf8 "\n") w))) := by
  have h0 : (utf8 "/name " ++ text).head? = some 47 := by
    rw [head?_append_of_ne_nil _ _ (by decide)]; decide
  have h1 : strncmp_eq (utf8 "/name " ++ text) (utf8 "/quit") 5 = false := by
    rw [strncmp_eq_append _ _ _ _ (by decide)]; decide
  have h2 : strncmp_eq (utf8 "/name " ++ text) (utf8 "/name ") 6 = true := by
    rw [strncmp_eq_append _ _ _ _ (by decide)]; decide
  have h3 : (utf8 "/name " ++ text).drop 6 = text := drop_append_length _ _ _ (by decide)
  simp only [handle_line, h0, h1, h2, h3, if_true, printf]
  simp

/-! ## The invariant of the reachable tables (C1) -/

/-- Writing a name changes no flag, id, socket or address of any slot. -/
theorem set_name_clients_active (index : Fin MAX_CLIENTS) (new_name : Bytes) (w : World)
    (i : Fin MAX_CLIENTS) :
    ((set_name index new_name w).clients i).active = (w.clients i).active ∧
    ((set_name index new_name w).clients i).id = (w.clients i).id ∧
    ((set_name index new_name w).clients i).socket = (w.clients i).socket ∧
    ((set_name index new_name w).clients i).address = (w.clients i).address := by
  by_cases h : i = index
  · subst h; simp [set_name]
  · simp [set_name, Function.update_noteq h]

/-- In a reachable table every active slot `i` holds id `i + 1`. -/
theorem reachable_slot_ids (w : World) (h : Reachable w) (i : Fin MAX_CLIENTS)
    (hi : (w.clients i).active ≠ 0) : (w.clients i).id = ((i : Nat) : Int) + 1 := by
  induction h generalizing i with
  | init f => exact absurd rfl hi
  | add socket address w _ ih =>
    cases hs : first_slot (fun c => c.active == 0) w.clients with
    | none =>
      rw [add_client_of_none socket address w hs] at hi ⊢
      exact ih i hi
    | some k =>
      rw [add_client_of_some socket address w k hs] at hi ⊢
      by_cases hik : i = k
      · subst hik; simp [new_client]
      · simp only [Function.update_noteq hik] at hi ⊢
        exact ih i hi
  | remove index w _ ih =>
    by_cases hik : i = index
    · subst hik; simp [remove_client] at hi
    · simp only [remove_client, Function.update_noteq hik] at hi ⊢
      exact ih i hi
  | rename index text w r _ hr ih =>
    rw [handle_line_name] at hr
    have hr2 : r.2.clients = (set_name index (text.take 31)
        (printf (utf8 "/name " ++ text ++ utf8 "\n") w)).clients := by
      cases hr; exact broadcast_message_clients _ _ _
    rw [hr2] at hi ⊢
    have hk := set_name_clients_active index (text.take 31)
      (printf (utf8 "/name " ++ text ++ utf8 "\n") w) i
    rw [hk.1] at hi
    rw [hk.2.1]
    exact ih i hi

/-- No table has more than `MAX_CLIENTS` active slots. -/
theorem active_count_le (t : Table) : active_count t ≤ MAX_CLIENTS := by
  unfold active_count
  calc (slots.filter (fun i => (t i).active != 0)).length
      ≤ slots.length := List.length_filter_le _ _
    _ = MAX_CLIENTS := slots_length

/-- Claim C1: in every session table reachable from the all-inactive initial table by any sequence
of `add_client`, `remove_client` and `/name` renames, the number of active slots is at most
`MAX_CLIENTS`, every active slot `i` holds id `i + 1` (so the id lies between 1 and `MAX_CLIENTS`),
and no two distinct active slots hold the same id. -/
theorem reachable_table_invariant (w : World) (h : Reachable w) :
    active_count w.clients ≤ MAX_CLIENTS ∧
    (∀ i : Fin MAX_CLIENTS, (w.clients i).active ≠ 0 →
      (w.clients i).id = ((i : Nat) : Int) + 1 ∧ 1 ≤ (w.clients i).id ∧
      (w.clients i).id ≤ (MAX_CLIENTS : Int)) ∧
    (∀ i j : Fin MAX_CLIENTS, i ≠ j → (w.clients i).active ≠ 0 → (w.clients j).active ≠ 0 →
      (w.clients i).id ≠ (w.clients j).id) := by
  refine ⟨active_count_le _, fun i hi => ?_, fun i j hij hi hj => ?_⟩
  · have hid := reachable_slot_ids w h i hi
    have hlt := i.isLt
    refine ⟨hid, ?_, ?_⟩ <;> rw [hid] <;> omega
  · rw [reachable_slot_ids w h i hi, reachable_slot_ids w h j hj]
    intro heq
    apply hij
    apply Fin.ext
    omega

/-- Claim C1 at a concrete reachable state: two sessions registered, then the first removed. -/
theorem reachable_table_invariant_witness :
    Reachable (remove_client 0 (add_client 5 example_address
      (add_client 4 example_address (World.init (fun _ => false))).2).2) ∧
    active_count (remove_client 0 (add_client 5 example_address
      (add_client 4 example_address (World.init (fun _ => false))).2).2).clients ≤ MAX_CLIENTS ∧
    (∀ i : Fin MAX_CLIENTS, ((remove_client 0 (add_client 5 example_address
        (add_client 4 example_address (World.init (fun _ => false))).2).2).clients i).active ≠ 0 →
      ((remove_client 0 (add_client 5 example_address
        (add_client 4 example_address (World.init (fun _ => false))).2).2).clients i).id
          = ((i : Nat) : Int) + 1 ∧
      1 ≤ ((remove_client 0 (add_client 5 example_address
        (add_client 4 example_address (World.init (fun _ => false))).2).2).clients i).id ∧
      ((remove_client 0 (add_client 5 example_address
        (add_client 4 example_address (World.init (fun _ => false))).2).2).clients i).id
          ≤ (MAX_CLIENTS : Int)) :=
  have hr := Reachable.remove 0 _ (Reachable.add 5 example_address _
    (Reachable.add 4 example_address _ (Reachable.init (fun _ => false))))
  ⟨hr, (reachable_table_invariant _ hr).1, (reachable_table_invariant _ hr).2.1⟩

/-! ## Fan-out (C4) and the cases of `send_to_client` -/

/-- The loop visits no index twice. -/
theorem slots_nodup : slots.Nodup := by
  have h := slots_pairwise
  exact h.imp (fun hlt => ne_of_lt hlt)

/-- Among the indices the loop visits, those passing a test occur once each, the others not at all. -/
theorem slots_filter_count (p : Fin MAX_CLIENTS → Bool) (i : Fin MAX_CLIENTS) :
    (slots.filter p).count i = if p i = true then 1 else 0 := by
  by_cases hp : p i = true
  · rw [List.count_filter hp, if_pos hp]
    exact List.count_eq_one_of_mem slots_nodup (mem_slots i)
  · rw [if_neg hp]
    apply List.count_eq_zero_of_not_mem
    intro hmem
    exact hp (List.mem_filter.1 hmem).2

/-- Claim C4: fan-out isolation.  For every session table, message and excluded id,
`broadcast_message` attempts exactly one send of the message to each active session whose id
differs from the excluded id and none to any other session; the sends attempted are the same
whichever of them fail; and the table is unchanged. -/
theorem broadcast_message_fanout (message : Bytes) (exclude_id : Int) (w : World) :
    (∃ targets : List (Fin MAX_CLIENTS),
      (∀ i, targets.count i =
        if (w.clients i).active ≠ 0 ∧ (w.clients i).id ≠ exclude_id then 1 else 0) ∧
      (broadcast_message message exclude_id w).sends =
        w.sends ++ targets.map (fun i => ((w.clients i).socket, message))) ∧
    (∀ f : Nat → Bool,
      (broadcast_message message exclude_id { w with send_fails := f }).sends =
        (broadcast_message message exclude_id w).sends) ∧
    (broadcast_message message exclude_id w).clients = w.clients := by
  refine ⟨⟨_, fun i => ?_, broadcast_message_sends message exclude_id w⟩, fun f => ?_,
    broadcast_message_clients message exclude_id w⟩
  · rw [slots_filter_count]; simp
  · rw [broadcast_message_sends, broadcast_message_sends]

/-- Function `send_to_client` when its first scan stops at slot `i`: one send, to that slot. -/
theorem send_to_client_of_target (message : Bytes) (target_id sender_id : Int) (w : World)
    (i : Fin MAX_CLIENTS)
    (h : first_slot (fun c => c.active != 0 && c.id == target_id) w.clients = some i) :
    (send_to_client message target_id sender_id w).sends =
      w.sends ++ [((w.clients i).socket, message)] ∧
    (send_to_client message target_id sender_id w).clients = w.clients := by
  simp only [send_to_client, h]
  by_cases hf : (send (w.clients i).socket message w).1 < 0
  · simp only [hf, if_true]; simp [perror, send]
  · simp only [hf, if_false]; simp [send]

/-- Function `send_to_client` when no target is found, `sender_id` is positive and the second
scan stops at slot `i`: one not-found notice, to that slot. -/
theorem send_to_client_of_sender (message : Bytes) (target_id sender_id : Int) (w : World)
    (i : Fin MAX_CLIENTS)
    (h : first_slot (fun c => c.active != 0 && c.id == target_id) w.clients = none)
    (hpos : 0 < sender_id)
    (hs : first_slot (fun c => c.active != 0 && c.id == sender_id) w.clients = some i) :
    (send_to_client message target_id sender_id w).sends =
      w.sends ++ [((w.clients i).socket,
        utf8 "[시스템] 클라이언트 " ++ fmt_d target_id ++ utf8 "를 찾을 수 없습니다.\n")] ∧
    (send_to_client message target_id sender_id w).clients = w.clients := by
  have hp : sender_id > 0 := hpos
  simp only [send_to_client, h, hs, hp, if_true]
  simp [send]

/-- Function `send_to_client` when no target is found and either `sender_id` is not positive or
no active slot holds it: nothing happens. -/
theorem send_to_client_of_nobody (message : Bytes) (target_id sender_id : Int) (w : World)
    (h : first_slot (fun c => c.active != 0 && c.id == target_id) w.clients = none)
    (hs : sender_id ≤ 0 ∨
      first_slot (fun c => c.active != 0 && c.id == sender_id) w.clients = none) :
    send_to_client message target_id sender_id w = w := by
  simp only [send_to_client, h]
  by_cases hp : sender_id > 0
  · rcases hs with hs | hs
    · omega
    · simp only [hp, if_true, hs]
  · simp only [hp, if_false]

/-- A scan for an id stops at the lowest-index active slot holding it. -/
theorem first_match_iff (t : Table) (k : Int) (i : Fin MAX_CLIENTS) :
    first_slot (fun c => c.active != 0 && c.id == k) t = some i ↔
      ((t i).active ≠ 0 ∧ (t i).id = k) ∧
      ∀ j, j < i → ¬ ((t j).active ≠ 0 ∧ (t j).id = k) := by
  rw [first_slot_eq_some_iff]; simp

/-- A scan for an id finds nothing exactly when no active slot holds it. -/
theorem no_match_iff (t : Table) (k : Int) :
    first_slot (fun c => c.active != 0 && c.id == k) t = none ↔
      ∀ j, (t j).active ≠ 0 → (t j).id ≠ k := by
  rw [first_slot_eq_none_iff]; simp

/-! ## Unicast (C5) -/

/-- Function `send_to_client` leaves the table unchanged. -/
theorem send_to_client_clients (message : Bytes) (target_id sender_id : Int) (w : World) :
    (send_to_client message target_id sender_id w).clients = w.clients := by
  cases ht : first_slot (fun c => c.active != 0 && c.id == target_id) w.clients with
  | some i => exact (send_to_client_of_target message target_id sender_id w i ht).2
  | none =>
    by_cases hpos : 0 < sender_id
    · cases hs : first_slot (fun c => c.active != 0 && c.id == sender_id) w.clients with
      | some i => exact (send_to_client_of_sender message target_id sender_id w i ht hpos hs).2
      | none => rw [send_to_client_of_nobody message target_id sender_id w ht (Or.inr hs)]
    · rw [send_to_client_of_nobody message target_id sender_id w ht (Or.inl (by omega))]

/-- The two-session example is a reachable state. -/
theorem two_clients_reachable : Reachable two_clients :=
  Reachable.add 5 example_address _
    (Reachable.add 4 example_address _ (Reachable.init (fun _ => false)))

/-- No active session of a reachable table holds an id above `MAX_CLIENTS`. -/
theorem reachable_no_large_id (w : World) (h : Reachable w) (k : Int)
    (hk : (MAX_CLIENTS : Int) < k) (j : Fin MAX_CLIENTS) (hj : (w.clients j).active ≠ 0) :
    (w.clients j).id ≠ k := by
  rw [reachable_slot_ids w h j hj]
  have := j.isLt
  omega

/-- The loop of `get_client_list` run over any list of indices: it appends the entries of the
active slots and counts them. -/
theorem roster_fold (t : Table) (l : List (Fin MAX_CLIENTS)) (acc : Bytes × Int) :
    l.foldl (fun (acc : Bytes × Int) i =>
      if (t i).active ≠ 0 then (acc.1 ++ roster_entry (t i), acc.2 + 1) else acc) acc =
    (acc.1 ++ ((l.filter (fun i => (t i).active != 0)).map t).flatMap roster_entry,
     acc.2 + (((l.filter (fun i => (t i).active != 0)).map t).length : Int)) := by
  induction l generalizing acc with
  | nil => simp
  | cons i l ih =>
    simp only [List.foldl_cons]
    by_cases hc : (t i).active ≠ 0
    · rw [if_pos hc, ih, List.filter_cons_of_pos (by simpa using hc)]
      simp only [List.map_cons, List.flatMap_cons, List.length_cons, List.append_assoc]
      congr 1
      push_cast
      ring
    · rw [if_neg hc, ih, List.filter_cons_of_neg (by simpa using hc)]

/-- The roster text: the header, one entry per active slot in slot order, and the summary
line with their number. -/
theorem get_client_list_eq (w : World) :
    get_client_list w = utf8 "\n=== 연결된 클라이언트 목록 ===\n" ++
      (active_clients w.clients).flatMap roster_entry ++
      (utf8 "총 " ++ fmt_d ((active_clients w.clients).length : Int) ++ utf8 "명 접속 중\n") := by
  unfold get_client_list active_clients
  rw [roster_fold]
  simp

/-- The records listed in the roster are those of the active slots. -/
theorem mem_active_clients (t : Table) (c : client_info) :
    c ∈ active_clients t ↔ ∃ i, (t i).active ≠ 0 ∧ t i = c := by
  unfold active_clients
  simp [List.mem_map, List.mem_filter, mem_slots]

/-! ## The `/all`, `/msg` and `/list` branches of the dispatch -/

/-- The dispatch of a line `/all <text>`: the tagged line is broadcast with the own id excluded
and then sent to the own socket. -/
theorem handle_line_all (index : Fin MAX_CLIENTS) (text : Bytes) (w : World) :
    handle_line index (utf8 "/all " ++ text) w =
      some (false, (send (w.clients index).socket
        (utf8 "[전체] " ++ (w.clients index).name ++ utf8 "(ID:" ++ fmt_d (w.clients index).id ++
          utf8 "): " ++ text ++ utf8 "\n")
        (broadcast_message
          (utf8 "[전체] " ++ (w.clients index).name ++ utf8 "(ID:" ++
            fmt_d (w.clients index).id ++ utf8 "): " ++ text ++ utf8 "\n")
          (w.clients index).id (printf (utf8 "/all " ++ text ++ utf8 "\n") w))).2) := by
  have h0 : (utf8 "/all " ++ text).head? = some 47 := by
    rw [head?_append_of_ne_nil _ _ (by decide)]; decide
  have h1 : strncmp_eq (utf8 "/all " ++ text) (utf8 "/quit") 5 = false := by
    rw [strncmp_eq_append _ _ _ _ (by decide)]; decide
  have h2 : strncmp_eq (utf8 "/all " ++ text) (utf8 "/name ") 6 = false := by
    simp only [strncmp_eq]
    have : utf8 "/all " = [47, 97, 108, 108, 32] := by decide
    rw [this]
    have hn : utf8 "/name " = [47, 110, 97, 109, 101, 32] := by decide
    rw [hn]
    cases text <;> simp
  have h3 : strncmp_eq (utf8 "/all " ++ text) (utf8 "/list") 5 = false := by
    rw [strncmp_eq_append _ _ _ _ (by decide)]; decide
  have h4 : strncmp_eq (utf8 "/all " ++ text) (utf8 "/msg ") 5 = false := by
    rw [strncmp_eq_append _ _ _ _ (by decide)]; decide
  have h5 : strncmp_eq (utf8 "/all " ++ text) (utf8 "/all ") 5 = true := by
    rw [strncmp_eq_append _ _ _ _ (by decide)]; decide
  have h6 : (utf8 "/all " ++ text).drop 5 = text := drop_append_length _ _ _ (by decide)
  simp only [handle_line, h0, h1, h2, h3, h4, h5, h6, if_true, printf]
  simp

/-- The dispatch of a line `/msg <args>` whose arguments `sscanf` converts: `send_to_client`
is called and then the confirmation is sent to the own socket. -/
theorem handle_line_msg (index : Fin MAX_CLIENTS) (args : Bytes) (w : World)
    (target_id : Int) (msg_content : Bytes)
    (hscan : sscanf_id_text args = Scanned.both target_id msg_content) :
    handle_line index (utf8 "/msg " ++ args) w =
      some (false, (send (w.clients index).socket
        (utf8 "[귓속말 to ID:" ++ fmt_d target_id ++ utf8 "] " ++ msg_content ++ utf8 "\n")
        (send_to_client
          (utf8 "[귓속말 from " ++ (w.clients index).name ++ utf8 "(ID:" ++
            fmt_d (w.clients index).id ++ utf8 ")] " ++ msg_content ++ utf8 "\n")
          target_id (w.clients index).id (printf (utf8 "/msg " ++ args ++ utf8 "\n") w))).2) := by
  have h0 : (utf8 "/msg " ++ args).head? = some 47 := by
    rw [head?_append_of_ne_nil _ _ (by decide)]; decide
  have h1 : strncmp_eq (utf8 "/msg " ++ args) (utf8 "/quit") 5 = false := by
    rw [strncmp_eq_append _ _ _ _ (by decide)]; decide
  have h2 : strncmp_eq (utf8 "/msg " ++ args) (utf8 "/name ") 6 = false := by
    simp only [strncmp_eq]
    have : utf8 "/msg " = [47, 109, 115, 103, 32] := by decide
    rw [this]
    have hn : utf8 "/name " = [47, 110, 97, 109, 101, 32] := by decide
    rw [hn]
    cases args <;> simp
  have h3 : strncmp_eq (utf8 "/msg " ++ args) (utf8 "/list") 5 = false := by
    rw [strncmp_eq_append _ _ _ _ (by decide)]; decide
  have h4 : strncmp_eq (utf8 "/msg " ++ args) (utf8 "/msg ") 5 = true := by
    rw [strncmp_eq_append _ _ _ _ (by decide)]; decide
  have h6 : (utf8 "/msg " ++ args).drop 5 = args := drop_append_length _ _ _ (by decide)
  simp only [handle_line, h0, h1, h2, h3, h4, h6, hscan, if_true, printf]
  simp

/-- The dispatch of the line `/list`: the roster is sent to the own socket when it fits
`list_buffer`, and the behaviour is undefined when it does not. -/
theorem handle_line_list (index : Fin MAX_CLIENTS) (w : World) :
    handle_line index (utf8 "/list") w =
      if (get_client_list w).length < 1024 then
        some (false, (send (w.clients index).socket (get_client_list w)
          (printf (utf8 "/list" ++ utf8 "\n") w)).2)
      else none := by
  have h0 : (utf8 "/list").head? = some 47 := by decide
  have h1 : strncmp_eq (utf8 "/list") (utf8 "/quit") 5 = false := by decide
  have h2 : strncmp_eq (utf8 "/list") (utf8 "/name ") 6 = false := by decide
  have h3 : strncmp_eq (utf8 "/list") (utf8 "/list") 5 = true := by decide
  have hg : get_client_list (printf (utf8 "/list" ++ utf8 "\n") w) = get_client_list w := rfl
  simp only [handle_line, h0, h1, h2, h3, if_true]
  rw [hg]
  rfl

/-! ## Roster after insert and remove (C7) -/

/-- In a table whose active slots `i` hold id `i + 1`, a scan for the id of an active slot
stops at that slot. -/
theorem first_match_self (t : Table) (index : Fin MAX_CLIENTS)
    (hids : ∀ i : Fin MAX_CLIENTS, (t i).active ≠ 0 → (t i).id = ((i : Nat) : Int) + 1)
    (hact : (t index).active ≠ 0) :
    first_slot (fun c => c.active != 0 && c.id == (t index).id) t = some index := by
  rw [first_match_iff]
  refine ⟨⟨hact, rfl⟩, fun j hj hmatch => ?_⟩
  have h1 := hids j hmatch.1
  have h2 := hids index hact
  have h3 : (j : Nat) < (index : Nat) := hj
  rw [h1, h2] at hmatch
  omega

/-- Claim C6 amended: for every session table whose active slots `i` hold id `i + 1` and in which no
active session has the id named in a `/msg <id> <text>` line that `sscanf` converts, handling
that line for an active sender yields exactly two replies to the sender, the not-found notice
followed by the delivery confirmation, and no message to any other session; the table is
unchanged. -/
theorem msg_to_absent_id_replies (index : Fin MAX_CLIENTS) (args : Bytes) (target_id : Int)
    (msg_content : Bytes) (w : World)
    (hscan : sscanf_id_text args = Scanned.both target_id msg_content)
    (hids : ∀ i : Fin MAX_CLIENTS, (w.clients i).active ≠ 0 →
      (w.clients i).id = ((i : Nat) : Int) + 1)
    (hact : (w.clients index).active ≠ 0)
    (hmiss : ∀ j, (w.clients j).active ≠ 0 → (w.clients j).id ≠ target_id) :
    ∃ w2 : World, handle_line index (utf8 "/msg " ++ args) w = some (false, w2) ∧
      w2.sends = w.sends ++
        [((w.clients index).socket,
            utf8 "[시스템] 클라이언트 " ++ fmt_d target_id ++ utf8 "를 찾을 수 없습니다.\n"),
         ((w.clients index).socket,
            utf8 "[귓속말 to ID:" ++ fmt_d target_id ++ utf8 "] " ++ msg_content ++ utf8 "\n")] ∧
      w2.clients = w.clients := by
  refine ⟨_, handle_line_msg index args w target_id msg_content hscan, ?_, ?_⟩
  · have hpos : 0 < (w.clients index).id := by rw [hids index hact]; omega
    have hs := send_to_client_of_sender
      (utf8 "[귓속말 from " ++ (w.clients index).name ++ utf8 "(ID:" ++
        fmt_d (w.clients index).id ++ utf8 ")] " ++ msg_content ++ utf8 "\n")
      target_id (w.clients index).id (printf (utf8 "/msg " ++ args ++ utf8 "\n") w) index
      ((no_match_iff _ _).2 hmiss) hpos (first_match_self w.clients index hids hact)
    simp only [send, hs.1]
    simp [printf]
  · have hc := send_to_client_clients
      (utf8 "[귓속말 from " ++ (w.clients index).name ++ utf8 "(ID:" ++
        fmt_d (w.clients index).id ++ utf8 ")] " ++ msg_content ++ utf8 "\n")
      target_id (w.clients index).id (printf (utf8 "/msg " ++ args ++ utf8 "\n") w)
    simp only [send, hc]
    rfl

/-! ## The notices of `/name` (C9) and `/all` (C10) -/

/-- Counting the indices the loop selects, with the test restated. -/
theorem count_of_pred (p q : Fin MAX_CLIENTS → Prop) [DecidablePred p] [DecidablePred q]
    (hpq : ∀ i, p i ↔ q i) (i : Fin MAX_CLIENTS) :
    (slots.filter (fun j => decide (p j))).count i = if q i then 1 else 0 := by
  rw [slots_filter_count]
  by_cases h : q i
  · simp [h, (hpq i).2 h]
  · have hnp : ¬ p i := fun hp => h ((hpq i).1 hp)
    simp [h, hnp]

/-- Claim C9 amended: for every session table and every `/name <text>` line handled for a slot, the
renamed notice is sent exactly once to every active session whose id is not -1, and to nobody
else; the renaming session itself, when active with an id other than -1, is among the receivers
(the sender is not excluded). -/
theorem name_notice_fanout (index : Fin MAX_CLIENTS) (text : Bytes) (w : World) :
    ∃ (w2 : World) (targets : List (Fin MAX_CLIENTS)),
      handle_line index (utf8 "/name " ++ text) w = some (false, w2) ∧
      (∀ i, targets.count i =
        if (w.clients i).active ≠ 0 ∧ (w.clients i).id ≠ -1 then 1 else 0) ∧
      w2.sends = w.sends ++ targets.map (fun i => ((w.clients i).socket,
        utf8 "[시스템] " ++ (w.clients index).name ++ utf8 "님이 이름을 " ++ text.take 31 ++
          utf8 "(으)로 변경했습니다.\n")) ∧
      ((w.clients index).active ≠ 0 → (w.clients index).id ≠ -1 → index ∈ targets) := by
  have hk := set_name_clients_active index (text.take 31)
    (printf (utf8 "/name " ++ text ++ utf8 "\n") w)
  have hcount := count_of_pred
    (fun i => ((set_name index (text.take 31)
        (printf (utf8 "/name " ++ text ++ utf8 "\n") w)).clients i).active ≠ 0 ∧
      ((set_name index (text.take 31)
        (printf (utf8 "/name " ++ text ++ utf8 "\n") w)).clients i).id ≠ -1)
    (fun i => (w.clients i).active ≠ 0 ∧ (w.clients i).id ≠ -1)
    (fun i => by
      show (_ ≠ 0 ∧ _ ≠ -1) ↔ ((w.clients i).active ≠ 0 ∧ (w.clients i).id ≠ -1)
      rw [(hk i).1, (hk i).2.1]; rfl)
  refine ⟨_, _, handle_line_name index text w, hcount, ?_, fun hact hid => ?_⟩
  · rw [broadcast_message_sends]
    congr 1
    apply List.map_congr_left
    intro i _
    rw [(hk i).2.2.1]
    rfl
  · have h1 := hcount index
    rw [if_pos ⟨hact, hid⟩] at h1
    exact List.count_pos_iff.1 (by omega)

/-- Claim C10: for every session with name `n` and id `k` that no other active session shares, and
every text `t`, handling `/all t` sends the line `[전체] n(ID:k): t` followed by a newline exactly
once to every other active session, then sends the identical line as an echo to the sender, and
sends nothing to anyone else; the table is unchanged. -/
theorem all_command_fanout (index : Fin MAX_CLIENTS) (text : Bytes) (w : World)
    (huniq : ∀ j, j ≠ index → (w.clients j).active ≠ 0 →
      (w.clients j).id ≠ (w.clients index).id) :
    ∃ (w2 : World) (others : List (Fin MAX_CLIENTS)),
      handle_line index (utf8 "/all " ++ text) w = some (false, w2) ∧
      (∀ j, others.count j = if (w.clients j).active ≠ 0 ∧ j ≠ index then 1 else 0) ∧
      w2.sends = w.sends ++
        others.map (fun j => ((w.clients j).socket,
          utf8 "[전체] " ++ (w.clients index).name ++ utf8 "(ID:" ++
            fmt_d (w.clients index).id ++ utf8 "): " ++ text ++ utf8 "\n")) ++
        [((w.clients index).socket,
          utf8 "[전체] " ++ (w.clients index).name ++ utf8 "(ID:" ++
            fmt_d (w.clients index).id ++ utf8 "): " ++ text ++ utf8 "\n")] ∧
      w2.clients = w.clients := by
  have hcount := count_of_pred
    (fun j => ((printf (utf8 "/all " ++ text ++ utf8 "\n") w).clients j).active ≠ 0 ∧
      ((printf (utf8 "/all " ++ text ++ utf8 "\n") w).clients j).id ≠ (w.clients index).id)
    (fun j => (w.clients j).active ≠ 0 ∧ j ≠ index)
    (fun j => by
      show ((w.clients j).active ≠ 0 ∧ (w.clients j).id ≠ (w.clients index).id) ↔ _
      constructor
      · rintro ⟨ha, hid⟩
        exact ⟨ha, fun hji => hid (by rw [hji])⟩
      · rintro ⟨ha, hji⟩
        exact ⟨ha, huniq j hji ha⟩)
  refine ⟨_, _, handle_line_all index text w, hcount, ?_, ?_⟩
  · simp only [send]
    rw [broadcast_message_sends]
    rfl
  · simp only [send]
    rw [broadcast_message_clients]
    rfl

/-! ## Examples, and `/name` followed by `/list` (C8) -/

/-- In a table whose active slots `i` hold id `i + 1`, no other active slot shares the id
of an active slot. -/
theorem distinct_ids_of_slot_ids (t : Table) (index : Fin MAX_CLIENTS)
    (hids : ∀ i : Fin MAX_CLIENTS, (t i).active ≠ 0 → (t i).id = ((i : Nat) : Int) + 1)
    (hact : (t index).active ≠ 0) :
    ∀ j, j ≠ index → (t j).active ≠ 0 → (t j).id ≠ (t index).id := by
  intro j hj ha
  rw [hids j ha, hids index hact]
  intro heq
  apply hj
  apply Fin.ext
  omega

/-- Slot 0 of the two-session example is active. -/
theorem two_clients_active_zero : (two_clients.clients 0).active ≠ 0 := by
  with_unfolding_all decide

set_option maxRecDepth 100000 in
/-- Claim C6 as stated fails: with two sessions registered and no session of id 999, the line
`/msg 999 hello` from session 1 yields two replies on its socket 4, the not-found notice and
then the delivery confirmation, not exactly one. -/
theorem msg_999_yields_two_replies :
    first_slot (fun c => c.active != 0 && c.id == 999) two_clients.clients = none ∧
    (handle_line 0 (utf8 "/msg 999 hello") two_clients).map (fun r => r.2.sends) =
      some [(4, utf8 "[시스템] 클라이언트 999를 찾을 수 없습니다.\n"),
            (4, utf8 "[귓속말 to ID:999] hello\n")] := by
  with_unfolding_all decide

/-- Claim C6 amended on the two-session example with the line `/msg 999 hello`. -/
theorem msg_to_absent_id_replies_witness :
    ∃ w2 : World, handle_line 0 (utf8 "/msg " ++ utf8 "999 hello") two_clients = some (false, w2) ∧
      w2.sends = two_clients.sends ++
        [((two_clients.clients 0).socket,
            utf8 "[시스템] 클라이언트 " ++ fmt_d 999 ++ utf8 "를 찾을 수 없습니다.\n"),
         ((two_clients.clients 0).socket,
            utf8 "[귓속말 to ID:" ++ fmt_d 999 ++ utf8 "] " ++ utf8 "hello" ++ utf8 "\n")] ∧
      w2.clients = two_clients.clients :=
  msg_to_absent_id_replies 0 (utf8 "999 hello") 999 (utf8 "hello") two_clients (by decide)
    (reachable_slot_ids two_clients two_clients_reachable) two_clients_active_zero
    (reachable_no_large_id two_clients two_clients_reachable 999 (by decide))

set_option maxRecDepth 100000 in
/-- Claim C9 as stated fails: with two sessions registered, `/name Bob` from session 1 (socket 4)
sends the renamed notice to socket 4 as well as to socket 5. -/
theorem name_notice_reaches_sender :
    (two_clients.clients 0).socket = 4 ∧
    (handle_line 0 (utf8 "/name Bob") two_clients).map (fun r => r.2.sends) =
      some [(4, utf8 "[시스템] User1님이 이름을 Bob(으)로 변경했습니다.\n"),
            (5, utf8 "[시스템] User1님이 이름을 Bob(으)로 변경했습니다.\n")] := by
  with_unfolding_all decide

/-- Claim C9 amended on the two-session example: the renaming slot 0 is among the receivers. -/
theorem name_notice_fanout_witness :
    ∃ (w2 : World) (targets : List (Fin MAX_CLIENTS)),
      handle_line 0 (utf8 "/name " ++ utf8 "Bob") two_clients = some (false, w2) ∧
      (0 : Fin MAX_CLIENTS) ∈ targets ∧
      w2.sends = two_clients.sends ++ targets.map (fun i => ((two_clients.clients i).socket,
        utf8 "[시스템] " ++ (two_clients.clients 0).name ++ utf8 "님이 이름을 " ++
          (utf8 "Bob").take 31 ++ utf8 "(으)로 변경했습니다.\n")) := by
  obtain ⟨w2, targets, h1, _, h3, h4⟩ := name_notice_fanout 0 (utf8 "Bob") two_clients
  exact ⟨w2, targets, h1, h4 two_clients_active_zero (by with_unfolding_all decide), h3⟩

/-- Claim C10 on the two-session example, session 1 handling `/all hi`. -/
theorem all_command_fanout_witness :
    ∃ (w2 : World) (others : List (Fin MAX_CLIENTS)),
      handle_line 0 (utf8 "/all " ++ utf8 "hi") two_clients = some (false, w2) ∧
      (∀ j, others.count j = if (two_clients.clients j).active ≠ 0 ∧ j ≠ 0 then 1 else 0) ∧
      w2.sends = two_clients.sends ++
        others.map (fun j => ((two_clients.clients j).socket,
          utf8 "[전체] " ++ (two_clients.clients 0).name ++ utf8 "(ID:" ++
            fmt_d (two_clients.clients 0).id ++ utf8 "): " ++ utf8 "hi" ++ utf8 "\n")) ++
        [((two_clients.clients 0).socket,
          utf8 "[전체] " ++ (two_clients.clients 0).name ++ utf8 "(ID:" ++
            fmt_d (two_clients.clients 0).id ++ utf8 "): " ++ utf8 "hi" ++ utf8 "\n")] ∧
      w2.clients = two_clients.clients :=
  all_command_fanout 0 (utf8 "hi") two_clients
    (distinct_ids_of_slot_ids two_clients.clients 0
      (reachable_slot_ids two_clients two_clients_reachable) two_clients_active_zero)

set_option maxRecDepth 100000 in
/-- The scenario of C10 evaluated: with two sessions, `/all hi` from `User1` makes first B
(socket 5) and then A (socket 4) receive the same tagged line. -/
theorem all_hi_scenario :
    (handle_line 0 (utf8 "/all hi") two_clients).map (fun r => r.2.sends) =
      some [(5, utf8 "[전체] User1(ID:1): hi\n"), (4, utf8 "[전체] User1(ID:1): hi\n")] := by
  with_unfolding_all decide

/-- The state after any number of connections is reachable. -/
theorem connect_reachable (n : Nat) : Reachable (connect n) := by
  induction n with
  | zero => exact Reachable.init _
  | succ n ih => exact Reachable.add _ _ _ ih

set_option maxRecDepth 100000 in
/-- Claim C8 at the failing input: after 30 connections from 127.0.0.1, session 1 handles
`/name Bob`, which succeeds and leaves a roster of 1183 bytes; handling `/list` next has no
defined result, because `get_client_list` writes those bytes and a NUL into
`char list_buffer[1024]`. -/
theorem name_then_list_overflows :
    (handle_line 0 (utf8 "/name Bob") (connect 30)).isSome = true ∧
    (handle_line 0 (utf8 "/name Bob") (connect 30)).map
      (fun r => (get_client_list r.2).length) = some 1183 ∧
    ((handle_line 0 (utf8 "/name Bob") (connect 30)).bind
      (fun r => handle_line 0 (utf8 "/list") r.2)).isSome = false := by
  with_unfolding_all decide

/-- The `/list` branch when the roster fits `list_buffer`: the roster is sent to the own socket. -/
theorem handle_line_list_of_fits (index : Fin MAX_CLIENTS) (w1 : World)
    (hfit : (get_client_list w1).length < 1024) :
    ∃ w2 : World, handle_line index (utf8 "/list") w1 = some (false, w2) ∧
      w2.sends = w1.sends ++ [((w1.clients index).socket,
        utf8 "\n=== 연결된 클라이언트 목록 ===\n" ++
          (active_clients w1.clients).flatMap roster_entry ++
          (utf8 "총 " ++ fmt_d ((active_clients w1.clients).length : Int) ++
            utf8 "명 접속 중\n"))] := by
  refine ⟨_, by rw [handle_line_list, if_pos hfit], ?_⟩
  simp only [send, printf]
  rw [get_client_list_eq]

/-- What holds of C8: for an active session, `/name <text>` always succeeds; if the roster
then fits `list_buffer`, `/list` sends back a roster with an entry bearing the id of the session
and the first 31 bytes of the text as its name; if it does not fit, `/list` is undefined. -/
theorem name_then_list_of_fits (index : Fin MAX_CLIENTS) (text : Bytes) (w : World)
    (hact : (w.clients index).active ≠ 0) :
    ∃ w1 : World, handle_line index (utf8 "/name " ++ text) w = some (false, w1) ∧
      ((get_client_list w1).length < 1024 →
        ∃ (w2 : World) (es : List client_info),
          handle_line index (utf8 "/list") w1 = some (false, w2) ∧
          w2.sends = w1.sends ++ [((w.clients index).socket,
            utf8 "\n=== 연결된 클라이언트 목록 ===\n" ++ es.flatMap roster_entry ++
              (utf8 "총 " ++ fmt_d (es.length : Int) ++ utf8 "명 접속 중\n"))] ∧
          ∃ c ∈ es, c.id = (w.clients index).id ∧ c.name = text.take 31) ∧
      (1024 ≤ (get_client_list w1).length → handle_line index (utf8 "/list") w1 = none) := by
  have hk := set_name_clients_active index (text.take 31)
    (printf (utf8 "/name " ++ text ++ utf8 "\n") w) index
  have hc := broadcast_message_clients
    (utf8 "[시스템] " ++ (w.clients index).name ++ utf8 "님이 이름을 " ++ text.take 31 ++
      utf8 "(으)로 변경했습니다.\n") (-1)
    (set_name index (text.take 31) (printf (utf8 "/name " ++ text ++ utf8 "\n") w))
  have hname : ((set_name index (text.take 31)
      (printf (utf8 "/name " ++ text ++ utf8 "\n") w)).clients index).name = text.take 31 := by
    simp [set_name]
  refine ⟨_, handle_line_name index text w, fun hfit => ?_, fun hbig => ?_⟩
  · obtain ⟨w2, h1, h2⟩ := handle_line_list_of_fits index _ hfit
    rw [hc, hk.2.2.1] at h2
    refine ⟨w2, _, h1, h2, ?_⟩
    refine ⟨_, (mem_active_clients _ _).2 ⟨index, ?_, rfl⟩, ?_, ?_⟩
    · rw [hk.1]; exact hact
    · rw [hk.2.1]; rfl
    · rw [hname]
  · rw [handle_line_list, if_neg (by omega)]

/-! ## Plain lines (C11) and rejected commands (C12) -/

/-- The dispatch of a line without a leading `/`: the line and a newline are broadcast with the
own id excluded. -/
theorem handle_line_plain (index : Fin MAX_CLIENTS) (buffer : Bytes) (w : World)
    (hplain : buffer.head? ≠ some 47) :
    handle_line index buffer w =
      some (false, broadcast_message (buffer ++ utf8 "\n") (w.clients index).id
        (printf (buffer ++ utf8 "\n") w)) := by
  simp only [handle_line, hplain, if_false]
  rfl

/-- The dispatch of a `/msg ` line whose arguments `sscanf` does not convert both: the usage
notice is sent to the own socket. -/
theorem handle_line_msg_usage (index : Fin MAX_CLIENTS) (args : Bytes) (w : World)
    (hscan : sscanf_id_text args = Scanned.fewer) :
    handle_line index (utf8 "/msg " ++ args) w =
      some (false, (send (w.clients index).socket
        (utf8 "[시스템] 사용법: /msg <ID> <메시지>\n")
        (printf (utf8 "/msg " ++ args ++ utf8 "\n") w)).2) := by
  have h0 : (utf8 "/msg " ++ args).head? = some 47 := by
    rw [head?_append_of_ne_nil _ _ (by decide)]; decide
  have h1 : strncmp_eq (utf8 "/msg " ++ args) (utf8 "/quit") 5 = false := by
    rw [strncmp_eq_append _ _ _ _ (by decide)]; decide
  have h2 : strncmp_eq (utf8 "/msg " ++ args) (utf8 "/name ") 6 = false := by
    simp only [strncmp_eq]
    have : utf8 "/msg " = [47, 109, 115, 103, 32] := by decide
    rw [this]
    have hn : utf8 "/name " = [47, 110, 97, 109, 101, 32] := by decide
    rw [hn]
    cases args <;> simp
  have h3 : strncmp_eq (utf8 "/msg " ++ args) (utf8 "/list") 5 = false := by
    rw [strncmp_eq_append _ _ _ _ (by decide)]; decide
  have h4 : strncmp_eq (utf8 "/msg " ++ args) (utf8 "/msg ") 5 = true := by
    rw [strncmp_eq_append _ _ _ _ (by decide)]; decide
  have h6 : (utf8 "/msg " ++ args).drop 5 = args := drop_append_length _ _ _ (by decide)
  simp only [handle_line, h0, h1, h2, h3, h4, h6, hscan, if_true, printf]
  simp

/-- The dispatch of a line with a leading `/` that begins with none of the five commands: the
unknown-command notice is sent to the own socket. -/
theorem handle_line_unknown (index : Fin MAX_CLIENTS) (buffer : Bytes) (w : World)
    (hslash : buffer.head? = some 47)
    (hquit : strncmp_eq buffer (utf8 "/quit") 5 = false)
    (hname : strncmp_eq buffer (utf8 "/name ") 6 = false)
    (hlist : strncmp_eq buffer (utf8 "/list") 5 = false)
    (hmsg : strncmp_eq buffer (utf8 "/msg ") 5 = false)
    (hall : strncmp_eq buffer (utf8 "/all ") 5 = false) :
    handle_line index buffer w =
      some (false, (send (w.clients index).socket
        (utf8 "[시스템] 알 수 없는 명령어입니다. /help로 도움말을 확인하세요.\n")
        (printf (buffer ++ utf8 "\n") w)).2) := by
  simp only [handle_line, hslash, hquit, hname, hlist, hmsg, hall, if_true]
  simp
  rfl

/-- Claim C11: for every received chunk whose line has no leading `/` (the empty line included),
handled by the worker of a session whose id no other active session shares, the worker sends
that line verbatim followed by one newline, with no identity tag, exactly once to every other
active session and to nobody else, so nothing to the sender (no echo); the loop goes on and the
table is unchanged. -/
theorem plain_line_fanout (index : Fin MAX_CLIENTS) (chunk : Bytes) (w : World)
    (hplain : (strip_line chunk).head? ≠ some 47)
    (huniq : ∀ j, j ≠ index → (w.clients j).active ≠ 0 →
      (w.clients j).id ≠ (w.clients index).id) :
    ∃ (w2 : World) (others : List (Fin MAX_CLIENTS)),
      handle_chunk index chunk w = some (false, w2) ∧
      (∀ j, others.count j = if (w.clients j).active ≠ 0 ∧ j ≠ index then 1 else 0) ∧
      index ∉ others ∧
      w2.sends = w.sends ++
        others.map (fun j => ((w.clients j).socket, strip_line chunk ++ utf8 "\n")) ∧
      w2.clients = w.clients := by
  have hcount := count_of_pred
    (fun j => ((printf (strip_line chunk ++ utf8 "\n") w).clients j).active ≠ 0 ∧
      ((printf (strip_line chunk ++ utf8 "\n") w).clients j).id ≠ (w.clients index).id)
    (fun j => (w.clients j).active ≠ 0 ∧ j ≠ index)
    (fun j => by
      show ((w.clients j).active ≠ 0 ∧ (w.clients j).id ≠ (w.clients index).id) ↔ _
      constructor
      · rintro ⟨ha, hid⟩
        exact ⟨ha, fun hji => hid (by rw [hji])⟩
      · rintro ⟨ha, hji⟩
        exact ⟨ha, huniq j hji ha⟩)
  refine ⟨_, _, handle_line_plain index (strip_line chunk) w hplain, hcount, ?_, ?_, ?_⟩
  · intro hmem
    have h1 := hcount index
    rw [if_neg (fun h => h.2 rfl)] at h1
    exact absurd (List.count_pos_iff.2 hmem) (by omega)
  · rw [broadcast_message_sends]
    rfl
  · rw [broadcast_message_clients]
    rfl

/-- Claim C12: rejected commands have no effect beyond one reply to the sender.  For every table
and slot, a `/msg ` line whose arguments `sscanf` does not convert into both an id and a text
yields exactly one send, the usage notice to the own socket; a line with a leading `/` that
begins with none of `/quit`, `/name `, `/list`, `/msg `, `/all ` yields exactly one send, the
unknown-command notice to the own socket; in both cases nothing is sent to any other session,
the loop goes on and the table is unchanged. -/
theorem rejected_command_reply (index : Fin MAX_CLIENTS) (w : World) :
    (∀ args : Bytes, sscanf_id_text args = Scanned.fewer →
      ∃ w2 : World, handle_line index (utf8 "/msg " ++ args) w = some (false, w2) ∧
        w2.sends = w.sends ++
          [((w.clients index).socket, utf8 "[시스템] 사용법: /msg <ID> <메시지>\n")] ∧
        w2.clients = w.clients) ∧
    (∀ buffer : Bytes, buffer.head? = some 47 →
      strncmp_eq buffer (utf8 "/quit") 5 = false →
      strncmp_eq buffer (utf8 "/name ") 6 = false →
      strncmp_eq buffer (utf8 "/list") 5 = false →
      strncmp_eq buffer (utf8 "/msg ") 5 = false →
      strncmp_eq buffer (utf8 "/all ") 5 = false →
      ∃ w2 : World, handle_line index buffer w = some (false, w2) ∧
        w2.sends = w.sends ++
          [((w.clients index).socket,
            utf8 "[시스템] 알 수 없는 명령어입니다. /help로 도움말을 확인하세요.\n")] ∧
        w2.clients = w.clients) := by
  constructor
  · intro args hscan
    exact ⟨_, handle_line_msg_usage index args w hscan, rfl, rfl⟩
  · intro buffer h0 h1 h2 h3 h4 h5
    exact ⟨_, handle_line_unknown index buffer w h0 h1 h2 h3 h4 h5, rfl, rfl⟩

/-! ## The receive loop and the end of a worker (C13) -/

/-- Function `broadcast_message` closes no socket. -/
theorem broadcast_message_closed (message : Bytes) (sender_id : Int) (w : World) :
    (broadcast_message message sender_id w).closed = w.closed :=
  (broadcast_fold message sender_id slots w).2.1

/-- Function `send_to_client` closes no socket. -/
theorem send_to_client_closed (message : Bytes) (target_id sender_id : Int) (w : World) :
    (send_to_client message target_id sender_id w).closed = w.closed := by
  unfold send_to_client
  split
  · dsimp only
    split <;> rfl
  · split
    · split <;> rfl
    · rfl

/-- A dispatched line closes no socket and changes no flag, id or socket of any slot. -/
theorem handle_line_frame (index : Fin MAX_CLIENTS) (buffer : Bytes) (w : World)
    (r : Bool × World) (h : handle_line index buffer w = some r) :
    r.2.closed = w.closed ∧
    ∀ j, (r.2.clients j).active = (w.clients j).active ∧
      (r.2.clients j).id = (w.clients j).id ∧
      (r.2.clients j).socket = (w.clients j).socket := by
  unfold handle_line at h
  simp only at h
  split at h
  · split at h
    · cases h; exact ⟨rfl, fun j => ⟨rfl, rfl, rfl⟩⟩
    · split at h
      · cases h
        refine ⟨by rw [broadcast_message_closed]; rfl, fun j => ?_⟩
        rw [broadcast_message_clients]
        have hk := set_name_clients_active index ((buffer.drop 6).take (NAME_SIZE - 1))
          (printf (buffer ++ utf8 "\n") w) j
        exact ⟨hk.1, hk.2.1, hk.2.2.1⟩
      · split at h
        · split at h
          · cases h; exact ⟨rfl, fun j => ⟨rfl, rfl, rfl⟩⟩
          · cases h
        · split at h
          · split at h
            · cases h
            · cases h
              refine ⟨by simp only [send]; rw [send_to_client_closed]; rfl, fun j => ?_⟩
              simp only [send]
              rw [send_to_client_clients]
              exact ⟨rfl, rfl, rfl⟩
            · cases h; exact ⟨rfl, fun j => ⟨rfl, rfl, rfl⟩⟩
          · split at h
            · cases h
              refine ⟨by simp only [send]; rw [broadcast_message_closed]; rfl, fun j => ?_⟩
              simp only [send]
              rw [broadcast_message_clients]
              exact ⟨rfl, rfl, rfl⟩
            · cases h; exact ⟨rfl, fun j => ⟨rfl, rfl, rfl⟩⟩
  · cases h
    refine ⟨by rw [broadcast_message_closed]; rfl, fun j => ?_⟩
    rw [broadcast_message_clients]
    exact ⟨rfl, rfl, rfl⟩

/-- A line that begins with `/quit` leaves the loop. -/
theorem handle_line_quit (index : Fin MAX_CLIENTS) (buffer : Bytes) (w : World)
    (hquit : strncmp_eq buffer (utf8 "/quit") 5 = true) :
    ∃ w1 : World, handle_line index buffer w = some (true, w1) := by
  have h0 : buffer.head? = some 47 := by
    have hq : utf8 "/quit" = [47, 113, 117, 105, 116] := by decide
    simp only [strncmp_eq, hq] at hquit
    cases buffer with
    | nil => simp at hquit
    | cons b bs =>
      simp at hquit
      simp [hquit.1]
  simp only [handle_line, h0, hquit, if_true]
  exact ⟨_, rfl⟩

/-- The receive loop closes no socket and changes no flag, id or socket of any slot. -/
theorem recv_loop_frame (index : Fin MAX_CLIENTS) (recvs : List Recv) (w w2 : World)
    (h : recv_loop index recvs w = some w2) :
    w2.closed = w.closed ∧
    ∀ j, (w2.clients j).active = (w.clients j).active ∧
      (w2.clients j).id = (w.clients j).id ∧
      (w2.clients j).socket = (w.clients j).socket := by
  induction recvs generalizing w with
  | nil => simp only [recv_loop] at h; cases h; exact ⟨rfl, fun j => ⟨rfl, rfl, rfl⟩⟩
  | cons t rest ih =>
    cases t with
    | closed => simp only [recv_loop] at h; cases h; exact ⟨rfl, fun j => ⟨rfl, rfl, rfl⟩⟩
    | error => simp only [recv_loop] at h; cases h; exact ⟨rfl, fun j => ⟨rfl, rfl, rfl⟩⟩
    | data chunk =>
      simp only [recv_loop] at h
      split at h
      · cases hc : handle_chunk index chunk w with
        | none => rw [hc] at h; cases h
        | some r =>
          obtain ⟨b, w1⟩ := r
          have hf := handle_line_frame index (strip_line chunk) w (b, w1) hc
          rw [hc] at h
          cases b with
          | true => simp only at h; cases h; exact hf
          | false =>
            simp only at h
            have hi := ih w1 h
            refine ⟨hi.1.trans hf.1, fun j => ?_⟩
            exact ⟨(hi.2 j).1.trans (hf.2 j).1, (hi.2 j).2.1.trans (hf.2 j).2.1,
              (hi.2 j).2.2.trans (hf.2 j).2.2⟩
      · cases h; exact ⟨rfl, fun j => ⟨rfl, rfl, rfl⟩⟩

/-- Whatever is received after a result that ends the loop does not affect the loop. -/
theorem recv_loop_truncate (index : Fin MAX_CLIENTS) (pre : List Recv) (t : Recv)
    (post : List Recv) (w : World) (ht : ends_loop t = true) :
    recv_loop index (pre ++ t :: post) w = recv_loop index (pre ++ [t]) w := by
  induction pre generalizing w with
  | nil =>
    cases t with
    | closed => simp [recv_loop]
    | error => simp [recv_loop]
    | data chunk =>
      simp only [List.nil_append, recv_loop]
      split
      · rename_i hlen
        have hq : strncmp_eq (strip_line chunk) (utf8 "/quit") 5 = true := by
          simp only [ends_loop, Bool.or_eq_true, beq_iff_eq] at ht
          rcases ht with h0 | hq
          · omega
          · exact hq
        obtain ⟨w1, hw1⟩ := handle_line_quit index (strip_line chunk) w hq
        simp only [handle_chunk, hw1]
      · rfl
  | cons a pre ih =>
    cases a with
    | closed => simp [recv_loop]
    | error => simp [recv_loop]
    | data chunk =>
      simp only [List.cons_append, recv_loop]
      split
      · cases hc : handle_chunk index chunk w with
        | none => rfl
        | some r =>
          obtain ⟨b, w1⟩ := r
          cases b with
          | true => rfl
          | false => exact ih w1
      · rfl

/-- A line that begins neither with `/list` nor with `/msg ` has a defined dispatch. -/
theorem handle_line_defined (index : Fin MAX_CLIENTS) (buffer : Bytes) (w : World)
    (hlist : strncmp_eq buffer (utf8 "/list") 5 = false)
    (hmsg : strncmp_eq buffer (utf8 "/msg ") 5 = false) :
    ∃ r : Bool × World, handle_line index buffer w = some r := by
  unfold handle_line
  simp only [hlist, hmsg]
  split
  · split
    · exact ⟨_, rfl⟩
    · split
      · exact ⟨_, rfl⟩
      · simp only [Bool.false_eq_true, if_false]
        split
        · exact ⟨_, rfl⟩
        · exact ⟨_, rfl⟩
  · exact ⟨_, rfl⟩

/-- The receive loop is defined on chunks none of whose lines begins with `/list` or `/msg `. -/
theorem recv_loop_defined (index : Fin MAX_CLIENTS) (recvs : List Recv) (w : World)
    (hsafe : ∀ chunk, Recv.data chunk ∈ recvs →
      strncmp_eq (strip_line chunk) (utf8 "/list") 5 = false ∧
      strncmp_eq (strip_line chunk) (utf8 "/msg ") 5 = false) :
    ∃ w2 : World, recv_loop index recvs w = some w2 := by
  induction recvs generalizing w with
  | nil => exact ⟨w, rfl⟩
  | cons t rest ih =>
    cases t with
    | closed => exact ⟨w, rfl⟩
    | error => exact ⟨w, rfl⟩
    | data chunk =>
      simp only [recv_loop]
      split
      · obtain ⟨r, hr⟩ := handle_line_defined index (strip_line chunk) w
          (hsafe chunk (List.mem_cons_self _ _)).1 (hsafe chunk (List.mem_cons_self _ _)).2
        obtain ⟨b, w1⟩ := r
        simp only [handle_chunk, hr]
        cases b with
        | true => exact ⟨w1, rfl⟩
        | false => exact ih w1 (fun c hc => hsafe c (List.mem_cons_of_mem _ hc))
      · exact ⟨w, rfl⟩

/-- The shape of a run of `handle_client`: the greeting leaves table and closed sockets as they
were, the receive loop runs from there, and the worker ends by broadcasting the leave notice
and calling `remove_client` on its own slot. -/
theorem handle_client_shape (index : Fin MAX_CLIENTS) (recvs : List Recv) (w : World) :
    ∃ w3 : World, w3.clients = w.clients ∧ w3.closed = w.closed ∧
      handle_client index recvs w =
        match recv_loop index recvs w3 with
        | none => none
        | some w4 =>
          some (remove_client index (broadcast_message
            (utf8 "[시스템] " ++ (w4.clients index).name ++ utf8 "(ID:" ++
              fmt_d (w4.clients index).id ++ utf8 ")님이 퇴장하셨습니다.\n")
            (w4.clients index).id
            (printf (utf8 "[클라이언트 " ++ fmt_d (w4.clients index).id ++ utf8 "] " ++
              (w4.clients index).name ++ utf8 " 연결 종료\n") w4))) := by
  refine ⟨_, ?_, ?_, rfl⟩
  · rw [broadcast_message_clients]; rfl
  · rw [broadcast_message_closed]; rfl

/-- Claim C13 amended: for every sequence of receive results fed to the worker of a session whose
id no other active session shares, (1) whatever is received after the first receive result that
ends the loop, namely a chunk whose first line (its bytes before the first newline) begins with
`/quit`, a zero-byte read or a negative read, does not affect the run, so none of it is
dispatched; (2) every run that has a result ends with the leave notice sent once to every other
active session and with one call of `remove_client` on the own slot (one socket closed, the own
one, in the whole run), after which that slot is inactive and the flags of the other slots are
as before; (3) the run has a result on every sequence none of whose lines begins with `/list` or
`/msg `. -/
theorem worker_drains_and_retires (index : Fin MAX_CLIENTS) (w : World)
    (huniq : ∀ j, j ≠ index → (w.clients j).active ≠ 0 →
      (w.clients j).id ≠ (w.clients index).id) :
    (∀ (pre : List Recv) (t : Recv) (post : List Recv), ends_loop t = true →
      handle_client index (pre ++ t :: post) w = handle_client index (pre ++ [t]) w) ∧
    (∀ (recvs : List Recv) (w2 : World), handle_client index recvs w = some w2 →
      w2.closed = w.closed ++ [(w.clients index).socket] ∧
      (w2.clients index).active = 0 ∧
      (∀ j, j ≠ index → (w2.clients j).active = (w.clients j).active) ∧
      ∃ (before : List (Int × Bytes)) (others : List (Fin MAX_CLIENTS)),
        (∀ j, others.count j = if (w.clients j).active ≠ 0 ∧ j ≠ index then 1 else 0) ∧
        w2.sends = before ++ others.map (fun j => ((w.clients j).socket,
          utf8 "[시스템] " ++ (w2.clients index).name ++ utf8 "(ID:" ++
            fmt_d (w.clients index).id ++ utf8 ")님이 퇴장하셨습니다.\n"))) ∧
    (∀ recvs : List Recv,
      (∀ chunk, Recv.data chunk ∈ recvs →
        strncmp_eq (strip_line chunk) (utf8 "/list") 5 = false ∧
        strncmp_eq (strip_line chunk) (utf8 "/msg ") 5 = false) →
      ∃ w2 : World, handle_client index recvs w = some w2) := by
  refine ⟨fun pre t post ht => ?_, fun recvs w2 h => ?_, fun recvs hsafe => ?_⟩
  · obtain ⟨w3, _, _, h1⟩ := handle_client_shape index (pre ++ t :: post) w
    unfold handle_client
    simp only
    rw [recv_loop_truncate index pre t post _ ht]
  · obtain ⟨w3, hc3, hd3, h1⟩ := handle_client_shape index recvs w
    rw [h1] at h
    cases h4 : recv_loop index recvs w3 with
    | none => rw [h4] at h; cases h
    | some w4 =>
      rw [h4] at h
      simp only [Option.some.injEq] at h
      have hf := recv_loop_frame index recvs w3 w4 h4
      have hact : ∀ j, (w4.clients j).active = (w.clients j).active := fun j => by
        rw [(hf.2 j).1, hc3]
      have hid : ∀ j, (w4.clients j).id = (w.clients j).id := fun j => by
        rw [(hf.2 j).2.1, hc3]
      have hsock : ∀ j, (w4.clients j).socket = (w.clients j).socket := fun j => by
        rw [(hf.2 j).2.2, hc3]
      subst h
      refine ⟨?_, ?_, fun j hj => ?_, ?_⟩
      · simp only [remove_client]
        rw [broadcast_message_closed, broadcast_message_clients]
        show w4.closed ++ [(w4.clients index).socket] = _
        rw [hf.1, hd3, hsock]
      · simp [remove_client]
      · simp only [remove_client, Function.update_noteq hj]
        rw [broadcast_message_clients]
        exact hact j
      · have hcount := count_of_pred
          (fun j => ((printf (utf8 "[클라이언트 " ++ fmt_d (w4.clients index).id ++ utf8 "] " ++
              (w4.clients index).name ++ utf8 " 연결 종료\n") w4).clients j).active ≠ 0 ∧
            ((printf (utf8 "[클라이언트 " ++ fmt_d (w4.clients index).id ++ utf8 "] " ++
              (w4.clients index).name ++ utf8 " 연결 종료\n") w4).clients j).id ≠
                (w4.clients index).id)
          (fun j => (w.clients j).active ≠ 0 ∧ j ≠ index)
          (fun j => by
            show ((w4.clients j).active ≠ 0 ∧ (w4.clients j).id ≠ (w4.clients index).id) ↔ _
            rw [hact j, hid j, hid index]
            constructor
            · rintro ⟨ha, hne⟩
              exact ⟨ha, fun hji => hne (by rw [hji])⟩
            · rintro ⟨ha, hji⟩
              exact ⟨ha, huniq j hji ha⟩)
        refine ⟨w4.sends, _, hcount, ?_⟩
        simp only [remove_client]
        rw [broadcast_message_sends, broadcast_message_clients]
        congr 1
        apply List.map_congr_left
        intro j _
        show ((w4.clients j).socket, _) = _
        rw [hsock j, hid index]
        simp
        rfl
  · obtain ⟨w3, _, _, h1⟩ := handle_client_shape index recvs w
    obtain ⟨w4, h4⟩ := recv_loop_defined index recvs w3 hsafe
    rw [h1, h4]
    exact ⟨_, rfl⟩

/-! ## Lines and receive chunks (C16) -/

/-- A line that does not begin with `/quit` does not leave the loop. -/
theorem handle_line_no_break (index : Fin MAX_CLIENTS) (buffer : Bytes) (w w1 : World)
    (hquit : strncmp_eq buffer (utf8 "/quit") 5 = false) :
    handle_line index buffer w ≠ some (true, w1) := by
  unfold handle_line
  simp only [hquit]
  intro h
  split at h
  · simp only [Bool.false_eq_true, if_false] at h
    split at h
    · cases h
    · split at h
      · split at h <;> cases h
      · split at h
        · split at h <;> cases h
        · split at h <;> cases h
  · cases h

/-- The receive loop dispatches the lines of `chunk_lines`, one per chunk, in order. -/
theorem recv_loop_eq_run_lines (index : Fin MAX_CLIENTS) (recvs : List Recv) (w : World) :
    recv_loop index recvs w = run_lines index (chunk_lines recvs) w := by
  induction recvs generalizing w with
  | nil => rfl
  | cons t rest ih =>
    cases t with
    | closed => rfl
    | error => rfl
    | data chunk =>
      simp only [recv_loop, chunk_lines]
      split
      · simp only [run_lines, handle_chunk]
        by_cases hq : strncmp_eq (strip_line chunk) (utf8 "/quit") 5 = true
        · obtain ⟨w1, hw1⟩ := handle_line_quit index (strip_line chunk) w hq
          simp only [hw1, hq, if_true]
        · have hq2 : strncmp_eq (strip_line chunk) (utf8 "/quit") 5 = false := by
            simpa using hq
          cases hc : handle_line index (strip_line chunk) w with
          | none => rfl
          | some r =>
            obtain ⟨b, w1⟩ := r
            cases b with
            | true => exact absurd hc (handle_line_no_break index _ w w1 hq2)
            | false => simp only [hq2, Bool.false_eq_true, if_false]; exact ih w1
      · rfl

/-- The line cut out of a chunk that holds a line, a newline and more bytes. -/
theorem strip_line_append (line tail : Bytes) (h : ∀ b ∈ line, b ≠ 0 ∧ b ≠ 10) :
    strip_line (line ++ 10 :: tail) = line := by
  unfold strip_line
  rw [List.takeWhile_append_of_pos (fun b hb => by simp [(h b hb).1, (h b hb).2])]
  simp

/-- The line cut out of a chunk that holds neither NUL nor newline is the whole chunk. -/
theorem strip_line_self (chunk : Bytes) (h : ∀ b ∈ chunk, b ≠ 0 ∧ b ≠ 10) :
    strip_line chunk = chunk := by
  unfold strip_line
  rw [List.takeWhile_eq_self_iff]
  intro b hb
  simp [(h b hb).1, (h b hb).2]

set_option maxRecDepth 100000 in
/-- Claim C16 as stated fails: the chunk `a\nb\n` and the chunks `a\n`, `b\n` are the same
byte stream, whose lines are `a` and `b`, yet the first makes the worker dispatch `a` alone and
the second `a` and then `b`; and the line `hello` received as `he` and `llo\n` is dispatched
as the two lines `he` and `llo`. -/
theorem dispatch_depends_on_chunking :
    recv_stream [Recv.data (utf8 "a\nb\n")] =
      recv_stream [Recv.data (utf8 "a\n"), Recv.data (utf8 "b\n")] ∧
    stream_lines (utf8 "a\nb\n") = [utf8 "a", utf8 "b"] ∧
    chunk_lines [Recv.data (utf8 "a\nb\n")] = [utf8 "a"] ∧
    (recv_loop 0 [Recv.data (utf8 "a\nb\n")] two_clients).map (fun w => w.sends) =
      some [(5, utf8 "a\n")] ∧
    (recv_loop 0 [Recv.data (utf8 "a\n"), Recv.data (utf8 "b\n")] two_clients).map
      (fun w => w.sends) = some [(5, utf8 "a\n"), (5, utf8 "b\n")] ∧
    stream_lines (recv_stream [Recv.data (utf8 "he"), Recv.data (utf8 "llo\n")]) =
      [utf8 "hello"] ∧
    chunk_lines [Recv.data (utf8 "he"), Recv.data (utf8 "llo\n")] = [utf8 "he", utf8 "llo"] ∧
    (recv_loop 0 [Recv.data (utf8 "he"), Recv.data (utf8 "llo\n")] two_clients).map
      (fun w => w.sends) = some [(5, utf8 "he\n"), (5, utf8 "llo\n")] := by
  with_unfolding_all decide

/-- Claim C16 amended: the lines a Session Worker dispatches are one per received chunk, in order,
each being the bytes of the chunk before its first newline (`chunk_lines`), up to the first
`/quit` line or failed read; so of a chunk that holds a line, a newline and more bytes only the
first line is dispatched and the rest is discarded, and a line split across two chunks is
dispatched as two lines. -/
theorem one_dispatch_per_chunk (index : Fin MAX_CLIENTS) :
    (∀ (recvs : List Recv) (w : World),
      recv_loop index recvs w = run_lines index (chunk_lines recvs) w) ∧
    (∀ (line tail : Bytes) (rest : List Recv), (∀ b ∈ line, b ≠ 0 ∧ b ≠ 10) →
      strncmp_eq line (utf8 "/quit") 5 = false →
      chunk_lines (Recv.data (line ++ 10 :: tail) :: rest) = line :: chunk_lines rest) ∧
    (∀ (a b : Bytes) (rest : List Recv), a ≠ [] → b ≠ [] → (∀ x ∈ a, x ≠ 0 ∧ x ≠ 10) →
      strncmp_eq a (utf8 "/quit") 5 = false →
      strncmp_eq (strip_line b) (utf8 "/quit") 5 = false →
      chunk_lines (Recv.data a :: Recv.data b :: rest) =
        a :: strip_line b :: chunk_lines rest) := by
  refine ⟨recv_loop_eq_run_lines index, fun line tail rest hl hq => ?_,
    fun a b rest ha hb hx hqa hqb => ?_⟩
  · simp only [chunk_lines, strip_line_append line tail hl, hq]
    simp
  · have ha2 : 0 < a.length := List.length_pos.2 ha
    have hb2 : 0 < b.length := List.length_pos.2 hb
    simp only [chunk_lines, strip_line_self a hx, hqa, hqb, ha2, hb2]
    simp

/-- Claim C16 amended at the chunk `a\nb\n` and at the chunks `he`, `llo\n`. -/
theorem one_dispatch_per_chunk_witness :
    chunk_lines (Recv.data (utf8 "a" ++ 10 :: utf8 "b\n") :: []) = utf8 "a" :: chunk_lines [] ∧
    chunk_lines (Recv.data (utf8 "he") :: Recv.data (utf8 "llo\n") :: []) =
      utf8 "he" :: strip_line (utf8 "llo\n") :: chunk_lines [] :=
  ⟨(one_dispatch_per_chunk 0).2.1 (utf8 "a") (utf8 "b\n") [] (by decide) (by decide),
   (one_dispatch_per_chunk 0).2.2 (utf8 "he") (utf8 "llo\n") [] (by decide) (by decide)
     (by decide) (by decide) (by decide)⟩

/-! ## Examples for the receive loop -/

/-- Claim C11 on the two-session example, session 1 sending the empty line. -/
theorem plain_line_fanout_witness :
    ∃ (w2 : World) (others : List (Fin MAX_CLIENTS)),
      handle_chunk 0 (utf8 "\n") two_clients = some (false, w2) ∧
      (∀ j, others.count j = if (two_clients.clients j).active ≠ 0 ∧ j ≠ 0 then 1 else 0) ∧
      (0 : Fin MAX_CLIENTS) ∉ others ∧
      w2.sends = two_clients.sends ++
        others.map (fun j => ((two_clients.clients j).socket,
          strip_line (utf8 "\n") ++ utf8 "\n")) ∧
      w2.clients = two_clients.clients :=
  plain_line_fanout 0 (utf8 "\n") two_clients (by decide)
    (distinct_ids_of_slot_ids two_clients.clients 0
      (reachable_slot_ids two_clients two_clients_reachable) two_clients_active_zero)

set_option maxRecDepth 100000 in
/-- The plain branch evaluated on the two-session example: the empty line reaches socket 5 as a
lone newline, and `hello` reaches it verbatim. -/
theorem empty_line_scenario :
    strip_line (utf8 "\n") = [] ∧
    (handle_chunk 0 (utf8 "\n") two_clients).map (fun r => r.2.sends) =
      some [(5, utf8 "\n")] ∧
    (handle_chunk 0 (utf8 "hello\n") two_clients).map (fun r => r.2.sends) =
      some [(5, utf8 "hello\n")] := by
  with_unfolding_all decide

/-- Claim C12 on the two-session example, for the lines `/msg hello`, `/msg 5` and `/help`. -/
theorem rejected_command_reply_witness :
    (∃ w2 : World, handle_line 0 (utf8 "/msg " ++ utf8 "hello") two_clients = some (false, w2) ∧
      w2.sends = two_clients.sends ++
        [((two_clients.clients 0).socket, utf8 "[시스템] 사용법: /msg <ID> <메시지>\n")] ∧
      w2.clients = two_clients.clients) ∧
    (∃ w2 : World, handle_line 0 (utf8 "/msg " ++ utf8 "5") two_clients = some (false, w2) ∧
      w2.sends = two_clients.sends ++
        [((two_clients.clients 0).socket, utf8 "[시스템] 사용법: /msg <ID> <메시지>\n")] ∧
      w2.clients = two_clients.clients) ∧
    (∃ w2 : World, handle_line 0 (utf8 "/help") two_clients = some (false, w2) ∧
      w2.sends = two_clients.sends ++
        [((two_clients.clients 0).socket,
          utf8 "[시스템] 알 수 없는 명령어입니다. /help로 도움말을 확인하세요.\n")] ∧
      w2.clients = two_clients.clients) :=
  ⟨(rejected_command_reply 0 two_clients).1 (utf8 "hello") (by decide),
   (rejected_command_reply 0 two_clients).1 (utf8 "5") (by decide),
   (rejected_command_reply 0 two_clients).2 (utf8 "/help") (by decide) (by decide) (by decide)
     (by decide) (by decide) (by decide)⟩

/-- Claim C13 amended on the two-session example: the worker of slot 0 receives `hi`, then `/quit`; a
later `late` changes nothing, its socket is closed once and its slot ends inactive. -/
theorem worker_drains_and_retires_witness :
    ends_loop (Recv.data (utf8 "/quit\n")) = true ∧
    handle_client 0 ([Recv.data (utf8 "hi\n")] ++ Recv.data (utf8 "/quit\n") ::
        [Recv.data (utf8 "late\n")]) two_clients =
      handle_client 0 ([Recv.data (utf8 "hi\n")] ++ [Recv.data (utf8 "/quit\n")]) two_clients ∧
    ∃ w2 : World,
      handle_client 0 [Recv.data (utf8 "hi\n"), Recv.data (utf8 "/quit\n")] two_clients =
        some w2 ∧
      w2.closed = two_clients.closed ++ [(two_clients.clients 0).socket] ∧
      (w2.clients 0).active = 0 := by
  have huniq := distinct_ids_of_slot_ids two_clients.clients 0
    (reachable_slot_ids two_clients two_clients_reachable) two_clients_active_zero
  have h := worker_drains_and_retires 0 two_clients huniq
  obtain ⟨w2, hw2⟩ := h.2.2 [Recv.data (utf8 "hi\n"), Recv.data (utf8 "/quit\n")]
    (fun chunk hc => by
      simp only [List.mem_cons, Recv.data.injEq, List.mem_singleton, List.not_mem_nil,
        or_false] at hc
      rcases hc with rfl | rfl <;> decide)
  have hp := h.2.1 _ w2 hw2
  exact ⟨by decide, h.1 _ _ _ (by decide), w2, hw2, hp.1, hp.2.1⟩

set_option maxRecDepth 100000 in
/-- Claim C13 as stated fails: in the receive sequence `hi\n/quit\n`, `late\n` the second line
received is `/quit`, yet the worker, which dispatches the first line of each chunk only,
dispatches `hi` and then `late`; and when the line `/quit` arrives as `/qu`, `it\n`, followed
by `late\n`, the worker answers `/qu` with the unknown-command notice and then dispatches `it`
and `late`. -/
theorem quit_line_inside_chunk_is_missed :
    stream_lines (recv_stream [Recv.data (utf8 "hi\n/quit\n"), Recv.data (utf8 "late\n")]) =
      [utf8 "hi", utf8 "/quit", utf8 "late"] ∧
    ends_loop (Recv.data (utf8 "hi\n/quit\n")) = false ∧
    chunk_lines [Recv.data (utf8 "hi\n/quit\n"), Recv.data (utf8 "late\n")] =
      [utf8 "hi", utf8 "late"] ∧
    (recv_loop 0 [Recv.data (utf8 "hi\n/quit\n"), Recv.data (utf8 "late\n")] two_clients).map
      (fun w => w.sends) = some [(5, utf8 "hi\n"), (5, utf8 "late\n")] ∧
    stream_lines (recv_stream [Recv.data (utf8 "/qu"), Recv.data (utf8 "it\n"),
      Recv.data (utf8 "late\n")]) = [utf8 "/quit", utf8 "late"] ∧
    chunk_lines [Recv.data (utf8 "/qu"), Recv.data (utf8 "it\n"), Recv.data (utf8 "late\n")] =
      [utf8 "/qu", utf8 "it", utf8 "late"] ∧
    (recv_loop 0 [Recv.data (utf8 "/qu"), Recv.data (utf8 "it\n"), Recv.data (utf8 "late\n")]
      two_clients).map (fun w => w.sends) =
      some [(4, utf8 "[시스템] 알 수 없는 명령어입니다. /help로 도움말을 확인하세요.\n"),
        (5, utf8 "it\n"), (5, utf8 "late\n")] := by
  with_unfolding_all decide

end Server

namespace Client

/-! ## The invariant of the Input Coordinator (C18) -/

/-- The states in which `idx` lies within the array and `input_buf` holds `idx` digits followed
by a NUL. -/
theorem keypad_step_invariant (key : UInt8) (s s1 : State) (h : keypad_step key s = some s1)
    (hinv : 0 ≤ s.idx ∧ s.idx ≤ 16 ∧
      (∀ i : Fin 17, ((i : Nat) : Int) < s.idx → 48 ≤ s.input_buf i ∧ s.input_buf i ≤ 57) ∧
      (∀ i : Fin 17, ((i : Nat) : Int) = s.idx → s.input_buf i = 0)) :
    0 ≤ s1.idx ∧ s1.idx ≤ 16 ∧
      (∀ i : Fin 17, ((i : Nat) : Int) < s1.idx → 48 ≤ s1.input_buf i ∧ s1.input_buf i ≤ 57) ∧
      (∀ i : Fin 17, ((i : Nat) : Int) = s1.idx → s1.input_buf i = 0) := by
  unfold keypad_step at h
  split at h
  · split at h
    · cases h; exact hinv
    · split at h
      · rename_i hdigit
        split at h
        · split at h
          · rename_i hrange
            cases h
            obtain ⟨h0, h16, hdig, hnul⟩ := hinv
            simp only [lcd_write_line2]
            refine ⟨by omega, by omega, fun i hi => ?_, fun i hi => ?_⟩
            · have hne1 : i ≠ (⟨s.idx.toNat + 1, by omega⟩ : Fin 17) := by
                intro heq
                have := congrArg Fin.val heq
                simp only at this
                omega
              rw [Function.update_noteq hne1]
              by_cases hii : i = (⟨s.idx.toNat, by omega⟩ : Fin 17)
              · rw [hii, Function.update_same]; exact hdigit
              · rw [Function.update_noteq hii]
                apply hdig
                have : (i : Nat) ≠ s.idx.toNat := fun hv => hii (Fin.ext hv)
                omega
            · have heq : i = (⟨s.idx.toNat + 1, by omega⟩ : Fin 17) := by
                apply Fin.ext
                simp only
                omega
              rw [heq, Function.update_same]
          · cases h
        · cases h; exact hinv
      · split at h
        · cases h; exact hinv
        · cases h; exact hinv
  · cases h; exact hinv

/-- Claim C18: in every Input Coordinator state reachable from the empty initial state by any
sequence of producer steps (one iteration of `keypad_thread` on any key) and Send Loop clears
(`clear_keypad_str`), each taken as one atomic step, the cursor satisfies `0 <= idx <= 16` and
the 17-byte buffer holds `idx` digit characters followed by a NUL terminator at position `idx`. -/
theorem coordinator_invariant (s : State) (h : Reachable s) :
    0 ≤ s.idx ∧ s.idx ≤ 16 ∧
      (∀ i : Fin 17, ((i : Nat) : Int) < s.idx → 48 ≤ s.input_buf i ∧ s.input_buf i ≤ 57) ∧
      (∀ i : Fin 17, ((i : Nat) : Int) = s.idx → s.input_buf i = 0) := by
  induction h with
  | init =>
    refine ⟨le_refl _, (by decide : (0 : Int) ≤ 16), fun i hi => ?_, fun _ _ => rfl⟩
    have : (0 : Int) ≤ ((i : Nat) : Int) := Int.ofNat_nonneg _
    simp only [State.init] at hi
    omega
  | key key s s1 _ hstep ih => exact keypad_step_invariant key s s1 hstep ih
  | clear s _ _ =>
    refine ⟨le_refl _, (by decide : (0 : Int) ≤ 16), fun i hi => ?_, fun _ _ => rfl⟩
    have : (0 : Int) ≤ ((i : Nat) : Int) := Int.ofNat_nonneg _
    simp only [clear_keypad_str, lcd_clear_line2] at hi
    omega

/-! ## The input cap (C14) -/

/-- A digit key pressed while the buffer holds the bytes `p`, fewer than 16, is appended. -/
theorem keypad_step_digit (d : UInt8) (s : State) (p : List UInt8)
    (hd : 48 ≤ d ∧ d ≤ 57) (hidx : s.idx = (p.length : Int))
    (hbuf : ∀ i : Fin 17, s.input_buf i = p.getD i 0) (hlt : p.length < 16) :
    ∃ s1 : State, keypad_step d s = some s1 ∧ s1.idx = ((p ++ [d]).length : Int) ∧
      (∀ i : Fin 17, s1.input_buf i = (p ++ [d]).getD i 0) ∧
      s1.is_send = s.is_send ∧ s1.keepRunning = s.keepRunning ∧ s1.running = s.running ∧
      s1.sent = s.sent := by
  have hne0 : d ≠ 0 := by
    intro h; rw [h] at hd; exact absurd hd.1 (by decide)
  have hnsend : ¬ (d = SEND ∨ s.idx ≥ 16) := by
    rintro (h | h)
    · rw [h] at hd; exact absurd hd.2 (by decide)
    · omega
  have hrange : 0 ≤ s.idx ∧ s.idx < 16 := by omega
  have hlt16 : s.idx < 16 := hrange.2
  simp only [keypad_step, hne0, ne_eq, not_false_eq_true, if_true, hnsend, if_false, hd,
    and_self, hlt16, hrange, dite_true]
  refine ⟨_, rfl, ?_, fun i => ?_, rfl, rfl, rfl, rfl⟩
  · simp only [lcd_write_line2, List.length_append, List.length_singleton]
    rw [hidx]; push_cast; ring
  · simp only [lcd_write_line2]
    have htn : s.idx.toNat = p.length := by omega
    by_cases h1 : i = (⟨s.idx.toNat + 1, by omega⟩ : Fin 17)
    · rw [h1, Function.update_same]
      rw [List.getD_eq_default]
      simp only [List.length_append, List.length_singleton]
      omega
    · rw [Function.update_noteq h1]
      by_cases h0 : i = (⟨s.idx.toNat, by omega⟩ : Fin 17)
      · rw [h0, Function.update_same]
        simp only [htn]
        rw [List.getD_eq_getElem _ _ (by simp)]
        simp
      · rw [Function.update_noteq h0, hbuf]
        have hv0 : (i : Nat) ≠ p.length := fun hv => h0 (Fin.ext (by simp only; omega))
        have hv1 : (i : Nat) ≠ p.length + 1 := fun hv => h1 (Fin.ext (by simp only; omega))
        by_cases hlow : (i : Nat) < p.length
        · rw [List.getD_eq_getElem _ _ hlow, List.getD_eq_getElem _ _ (by simp; omega)]
          rw [List.getElem_append_left hlow]
        · rw [List.getD_eq_default _ _ (by omega), List.getD_eq_default _ _ (by simp; omega)]

/-- A run of digit keys that fits the buffer is appended key by key. -/
theorem keypad_thread_digits (ds rest : List UInt8) (s : State) (p : List UInt8)
    (hds : ∀ d ∈ ds, 48 ≤ d ∧ d ≤ 57) (hidx : s.idx = (p.length : Int))
    (hbuf : ∀ i : Fin 17, s.input_buf i = p.getD i 0) (hlen : p.length + ds.length ≤ 16)
    (hkeep : s.keepRunning ≠ 0) :
    ∃ s1 : State, keypad_thread (ds ++ rest) s = keypad_thread rest s1 ∧
      s1.idx = ((p ++ ds).length : Int) ∧
      (∀ i : Fin 17, s1.input_buf i = (p ++ ds).getD i 0) ∧
      s1.is_send = s.is_send ∧ s1.keepRunning = s.keepRunning ∧ s1.running = s.running ∧
      s1.sent = s.sent := by
  induction ds generalizing s p with
  | nil => exact ⟨s, rfl, by simpa using hidx, by simpa using hbuf, rfl, rfl, rfl, rfl⟩
  | cons d ds ih =>
    simp only [List.length_cons] at hlen
    obtain ⟨s1, hstep, hidx1, hbuf1, hsend1, hkeep1, hrun1, hsent1⟩ :=
      keypad_step_digit d s p (hds d (List.mem_cons_self _ _)) hidx hbuf (by omega)
    obtain ⟨s2, hrun, hidx2, hbuf2, hsend2, hkeep2, hrun2, hsent2⟩ :=
      ih s1 (p ++ [d]) (fun x hx => hds x (List.mem_cons_of_mem _ hx)) hidx1 hbuf1
        (by simp only [List.length_append, List.length_singleton]; omega)
        (by rw [hkeep1]; exact hkeep)
    refine ⟨s2, ?_, ?_, ?_, hsend2.trans hsend1, hkeep2.trans hkeep1, hrun2.trans hrun1,
      hsent2.trans hsent1⟩
    · simp only [List.cons_append, keypad_thread, hkeep, ne_eq, not_false_eq_true, if_true,
        hstep]
      exact hrun
    · simpa using hidx2
    · simpa using hbuf2

/-- The 17 bytes of a buffer that holds `p` and NULs after it. -/
theorem buf_bytes_of_holds (buf : Fin 17 → UInt8) (p : List UInt8)
    (hbuf : ∀ i : Fin 17, buf i = p.getD i 0) (hlen : p.length ≤ 16) :
    buf_bytes buf = p ++ List.replicate (17 - p.length) 0 := by
  apply List.ext_getElem
  · simp only [buf_bytes, List.length_map, List.length_finRange, List.length_append,
      List.length_replicate]
    omega
  · intro n h1 h2
    simp only [buf_bytes, List.getElem_map, List.getElem_finRange]
    have hn : n < 17 := by simpa [buf_bytes] using h1
    have hb : buf ⟨n, hn⟩ = p.getD n 0 := hbuf ⟨n, hn⟩
    simp only [Fin.cast_mk]
    rw [hb]
    by_cases hlow : n < p.length
    · rw [List.getD_eq_getElem _ _ hlow, List.getElem_append_left hlow]
    · rw [List.getD_eq_default _ _ (by omega), List.getElem_append_right (by omega)]
      simp

/-- The C string in a buffer that holds the non-NUL bytes `p` and NULs after them. -/
theorem c_string_of_holds (buf : Fin 17 → UInt8) (p : List UInt8)
    (hbuf : ∀ i : Fin 17, buf i = p.getD i 0) (hlen : p.length ≤ 16)
    (hnz : ∀ b ∈ p, b ≠ 0) : c_string buf = some p := by
  unfold c_string
  rw [buf_bytes_of_holds buf p hbuf hlen]
  have hk : 17 - p.length = (16 - p.length) + 1 := by omega
  rw [hk, List.replicate_succ]
  have hmem : (0 : UInt8) ∈ p ++ 0 :: List.replicate (16 - p.length) 0 := by simp
  rw [if_pos hmem, List.takeWhile_append_of_pos (fun b hb => by simp [hnz b hb])]
  simp

/-- Claim C14 amended: starting from an empty Input Coordinator, 17 digit key events with no commit
event hand exactly one message to the Send Loop, made of the first 16 digits: after each of the
first 16 keys `is_send` is still 0 and the Send Loop sends nothing, the 17th key sets `is_send`
with the 16 digits buffered, and once that message is sent and cleared the buffer is empty
(`idx = 0`, all bytes NUL, `is_send = 0`): the 17th digit is not stored. -/
theorem seventeen_digits_commit (ds : List UInt8) (hlen : ds.length = 17)
    (hdig : ∀ d ∈ ds, 48 ≤ d ∧ d ≤ 57) :
    (∀ k, k ≤ 16 → ∃ sk : State, keypad_thread (ds.take k) State.init = some (sk, false) ∧
      sk.is_send = 0 ∧ ∀ ok, send_loop_step ok sk = some (sk, true)) ∧
    ∃ s1 s2 : State, keypad_thread ds State.init = some (s1, false) ∧
      s1.is_send = 1 ∧ s1.sent = [] ∧ c_string s1.input_buf = some (ds.take 16) ∧
      send_loop_step true s1 = some (s2, true) ∧ s2.sent = [ds.take 16] ∧
      s2.idx = 0 ∧ (∀ i, s2.input_buf i = 0) ∧ s2.is_send = 0 ∧
      c_string s2.input_buf = some [] := by
  have hinit_buf : ∀ i : Fin 17, State.init.input_buf i = ([] : List UInt8).getD i 0 :=
    fun _ => rfl
  have hkeep : State.init.keepRunning ≠ 0 := by decide
  constructor
  · intro k hk
    obtain ⟨sk, hrun, _, _, hsend, hkr, hrn, _⟩ := keypad_thread_digits (ds.take k) []
      State.init [] (fun d hd => hdig d (List.mem_of_mem_take hd)) rfl hinit_buf
      (by simp only [List.length_nil, List.length_take]; omega) hkeep
    rw [List.append_nil] at hrun
    have hkr1 : sk.keepRunning = 1 := hkr
    have hrn1 : sk.running = 1 := hrn
    have hs0 : sk.is_send = 0 := hsend
    refine ⟨sk, ?_, hs0, fun ok => ?_⟩
    · rw [hrun]
      simp [keypad_thread, hkr1]
    · simp [send_loop_step, hkr1, hrn1, hs0]
  · obtain ⟨s0, hrun, hidx, hbuf, hsend, hkr, hrn, hsent⟩ := keypad_thread_digits (ds.take 16)
      (ds.drop 16) State.init [] (fun d hd => hdig d (List.mem_of_mem_take hd)) rfl hinit_buf
      (by simp only [List.length_nil, List.length_take]; omega) hkeep
    rw [List.take_append_drop] at hrun
    simp only [List.nil_append] at hidx hbuf
    have hlen16 : (ds.take 16).length = 16 := by simp only [List.length_take]; omega
    have hkr1 : s0.keepRunning = 1 := hkr
    have hrn1 : s0.running = 1 := hrn
    have hidx16 : s0.idx = 16 := by rw [hidx, hlen16]; rfl
    obtain ⟨d, hd⟩ : ∃ d, ds.drop 16 = [d] := by
      have hl : (ds.drop 16).length = 1 := by simp only [List.length_drop]; omega
      match hdrop : ds.drop 16, hl with
      | [d], _ => exact ⟨d, rfl⟩
    have hdmem : d ∈ ds := List.mem_of_mem_drop (by rw [hd]; exact List.mem_singleton_self d)
    have hd0 : d ≠ 0 := by
      intro h; have := hdig d hdmem; rw [h] at this; exact absurd this.1 (by decide)
    have hstep : keypad_step d s0 = some { s0 with is_send := 1 } := by
      simp [keypad_step, hd0, hidx16]
    have hcs : c_string s0.input_buf = some (ds.take 16) :=
      c_string_of_holds s0.input_buf (ds.take 16) hbuf (by omega)
        (fun b hb h0 => by
          have := hdig b (List.mem_of_mem_take hb)
          rw [h0] at this; exact absurd this.1 (by decide))
    have hsent0 : s0.sent = [] := hsent
    refine ⟨{ s0 with is_send := 1 },
      clear_keypad_str { s0 with is_send := 1, sent := s0.sent ++ [ds.take 16] },
      ?_, rfl, hsent0, hcs, ?_, ?_, rfl, fun _ => rfl, rfl, ?_⟩
    · rw [hrun, hd]
      simp [keypad_thread, hkr1, hstep]
    · simp [send_loop_step, hrn1, hcs, clear_keypad_str, lcd_clear_line2, hkr1]
    · simp [clear_keypad_str, lcd_clear_line2, hsent0]
    · exact c_string_of_holds _ [] (fun _ => rfl) (by simp) (by simp)

set_option maxRecDepth 100000 in
/-- Claim C14 as stated fails: after the 17 digit keys `12345678901234567` and one pass of the
Send Loop, the message sent is `1234567890123456` and the buffer is empty; it does not hold
the 17th digit `7`. -/
theorem seventeenth_digit_is_dropped :
    seventeen_digits.length = 17 ∧ seventeen_digits.getLast? = some 55 ∧
    ((keypad_thread seventeen_digits State.init).bind
        (fun r => send_loop_step true r.1)).map
      (fun r => (r.1.sent, r.1.idx, c_string r.1.input_buf, r.1.input_buf 0)) =
      some ([seventeen_digits.take 16], 0, some [], 0) := by
  decide

/-- Claim C14 amended at the 17 digit keys `12345678901234567`. -/
theorem seventeen_digits_commit_witness :
    seventeen_digits.length = 17 ∧
    ∃ s1 s2 : State, keypad_thread seventeen_digits State.init = some (s1, false) ∧
      s1.is_send = 1 ∧ s1.sent = [] ∧
      c_string s1.input_buf = some (seventeen_digits.take 16) ∧
      send_loop_step true s1 = some (s2, true) ∧ s2.sent = [seventeen_digits.take 16] ∧
      s2.idx = 0 ∧ (∀ i, s2.input_buf i = 0) ∧ s2.is_send = 0 ∧
      c_string s2.input_buf = some [] :=
  ⟨by decide, (seventeen_digits_commit seventeen_digits (by decide) (by decide)).2⟩

/-! ## Commit and terminate keys (C15), producer steps while ready (C17) -/

/-- The commit key sets `is_send` in every state; the terminate key clears `keepRunning`
while `idx` is below 16, and only sets `is_send` once `idx` has reached 16. -/
theorem commit_and_terminate_keys (s : State) :
    keypad_step SEND s = some { s with is_send := 1 } ∧
    (s.idx < 16 → keypad_step END_SIGN s = some { s with keepRunning := 0 }) ∧
    (16 ≤ s.idx → keypad_step END_SIGN s = some { s with is_send := 1 }) := by
  refine ⟨?_, fun h => ?_, fun h => ?_⟩
  · simp [keypad_step, SEND]
  · have h1 : ¬ (16 ≤ s.idx) := by omega
    simp [keypad_step, END_SIGN, SEND, h1]
  · simp [keypad_step, END_SIGN, h]

set_option maxRecDepth 100000 in
/-- Claim C15 at the failing input: after 16 digit keys the cursor is 16 with `is_send = 0` and
`keepRunning = 1`; the terminate key pressed then only sets `is_send`, and `keepRunning` is
still 1, so the producer loop goes on. -/
theorem terminate_key_swallowed_at_cap :
    (keypad_thread (seventeen_digits.take 16) State.init).map
      (fun r => (r.1.idx, r.1.is_send, r.1.keepRunning, r.2)) = some (16, 0, 1, false) ∧
    (keypad_thread (seventeen_digits.take 16 ++ [END_SIGN]) State.init).map
      (fun r => (r.1.idx, r.1.is_send, r.1.keepRunning, r.2)) = some (16, 1, 1, false) := by
  decide

set_option maxRecDepth 100000 in
/-- Claim C17 as stated fails: after the keys `1`, `2` and the commit key, `is_send` is 1 with
`12` buffered; the digit key `3` pressed then moves the cursor to 3 and the buffer to `123`,
and the Send Loop sends `123`. -/
theorem digit_appended_while_ready :
    (keypad_thread [49, 50, SEND] State.init).map
      (fun r => (r.1.is_send, r.1.idx, c_string r.1.input_buf)) =
      some (1, 2, some [49, 50]) ∧
    (keypad_thread [49, 50, SEND, 51] State.init).map
      (fun r => (r.1.is_send, r.1.idx, c_string r.1.input_buf)) =
      some (1, 3, some [49, 50, 51]) ∧
    ((keypad_thread [49, 50, SEND, 51] State.init).bind
      (fun r => send_loop_step true r.1)).map (fun r => r.1.sent) = some [[49, 50, 51]] := by
  decide

/-- Claim C17 amended: in every Input Coordinator state with `is_send` set, a producer step on a
key that is not a digit, or on any key once the cursor is 16, leaves the buffer and the cursor
unchanged and `is_send` set; a producer step on a digit key while the cursor is below 16
appends the digit and advances the cursor, `is_send` staying set; and the message the Send Loop
sends is the content of the buffer at the time the Send Loop runs. -/
theorem producer_step_while_ready (key : UInt8) (s : State) (hready : s.is_send ≠ 0) :
    ((key = 0 ∨ key = SEND ∨ 16 ≤ s.idx ∨ ¬ (48 ≤ key ∧ key ≤ 57)) →
      ∃ s1 : State, keypad_step key s = some s1 ∧ s1.input_buf = s.input_buf ∧
        s1.idx = s.idx ∧ s1.is_send ≠ 0) ∧
    ((48 ≤ key ∧ key ≤ 57) → 0 ≤ s.idx → s.idx < 16 →
      ∃ s1 : State, keypad_step key s = some s1 ∧ s1.idx = s.idx + 1 ∧
        (∀ i : Fin 17, ((i : Nat) : Int) = s.idx → s1.input_buf i = key) ∧
        s1.is_send = s.is_send) ∧
    (∀ (ok : Bool) (message : List UInt8), s.running ≠ 0 →
      c_string s.input_buf = some message →
      ∃ r : State × Bool, send_loop_step ok s = some r ∧ r.1.sent = s.sent ++ [message]) := by
  refine ⟨fun h => ?_, fun hd h0 h16 => ?_, fun ok message hrun hcs => ?_⟩
  · unfold keypad_step
    split
    · split
      · exact ⟨_, rfl, rfl, rfl, by simp⟩
      · rename_i hk hns
        have hnd : ¬ (48 ≤ key ∧ key ≤ 57) := by
          rcases h with h | h | h | h
          · exact absurd h hk
          · exact absurd (Or.inl h) hns
          · exact absurd (Or.inr h) hns
          · exact h
        rw [if_neg hnd]
        split
        · exact ⟨_, rfl, rfl, rfl, hready⟩
        · exact ⟨_, rfl, rfl, rfl, hready⟩
    · exact ⟨_, rfl, rfl, rfl, hready⟩
  · have hk : key ≠ 0 := by
      intro h; rw [h] at hd; exact absurd hd.1 (by decide)
    have hns : ¬ (key = SEND ∨ s.idx ≥ 16) := by
      rintro (h | h)
      · rw [h] at hd; exact absurd hd.2 (by decide)
      · omega
    have hrange : 0 ≤ s.idx ∧ s.idx < 16 := ⟨h0, h16⟩
    simp only [keypad_step, hk, ne_eq, not_false_eq_true, if_true, hns, if_false, hd,
      and_self, h16, hrange, dite_true]
    refine ⟨_, rfl, rfl, fun i hi => ?_, rfl⟩
    simp only [lcd_write_line2]
    have h1 : i ≠ (⟨s.idx.toNat + 1, by omega⟩ : Fin 17) := by
      intro heq
      have := congrArg Fin.val heq
      simp only at this
      omega
    have h2 : i = (⟨s.idx.toNat, by omega⟩ : Fin 17) := by
      apply Fin.ext
      simp only
      omega
    rw [Function.update_noteq h1, h2, Function.update_same]
  · unfold send_loop_step
    simp only [hrun, ne_eq, not_false_eq_true, if_true, hready, hcs]
    split
    · split
      · exact ⟨_, rfl, rfl⟩
      · exact ⟨_, rfl, rfl⟩
    · exact ⟨_, rfl, rfl⟩

/-! ## Connection loss and shutdown (C19), examples -/

/-- The receive loop, entered with `running` set, assigns `bytes_received` and touches neither
`keepRunning` nor `running` nor the Input Coordinator. -/
theorem receive_loop_frame (recvs : List Server.Recv) (br : Option Int) (s : State)
    (hrun : s.running ≠ 0) :
    ∃ (s1 : State) (n : Int), receive_loop recvs br s = (s1, some n) ∧
      s1.running = s.running ∧ s1.keepRunning = s.keepRunning ∧ s1.is_send = s.is_send ∧
      s1.idx = s.idx ∧ s1.input_buf = s.input_buf ∧ s1.sent = s.sent := by
  induction recvs generalizing br s with
  | nil => exact ⟨s, 0, by simp [receive_loop, hrun], rfl, rfl, rfl, rfl, rfl, rfl⟩
  | cons r rest ih =>
    cases r with
    | closed => exact ⟨s, 0, by simp [receive_loop, hrun], rfl, rfl, rfl, rfl, rfl, rfl⟩
    | error => exact ⟨s, -1, by simp [receive_loop, hrun], rfl, rfl, rfl, rfl, rfl, rfl⟩
    | data chunk =>
      by_cases hlen : 0 < chunk.length
      · by_cases hlong : chunk.length > 16
        · obtain ⟨s1, n, h1, h2⟩ := ih (some (chunk.length : Int))
            { s with console := s.console ++
              [13 :: chunk.takeWhile (fun b => b != 0), Server.utf8 "> "] } hrun
          exact ⟨s1, n, by simp [receive_loop, hrun, hlen, hlong, h1], h2⟩
        · obtain ⟨s1, n, h1, h2⟩ := ih (some (chunk.length : Int))
            (lcd_write_line1 chunk { s with console := s.console ++
              [13 :: chunk.takeWhile (fun b => b != 0), Server.utf8 "> "] }) hrun
          exact ⟨s1, n, by simp [receive_loop, hrun, hlen, hlong, h1], h2⟩
      · exact ⟨s, 0, by simp [receive_loop, hrun, hlen], rfl, rfl, rfl, rfl, rfl, rfl⟩

/-- Function `receive_messages`, started while `running` is set, returns with `running`
cleared and `keepRunning` as it found it. -/
theorem receive_messages_clears_running (recvs : List Server.Recv) (s : State)
    (hrun : s.running ≠ 0) :
    ∃ s1 : State, receive_messages recvs s = some s1 ∧ s1.running = 0 ∧
      s1.keepRunning = s.keepRunning ∧ s1.is_send = s.is_send ∧ s1.idx = s.idx ∧
      s1.input_buf = s.input_buf ∧ s1.sent = s.sent := by
  obtain ⟨s1, n, h1, _, hk, hs, hi, hb, hsent⟩ := receive_loop_frame recvs none s hrun
  unfold receive_messages
  rw [h1]
  simp only
  split
  · exact ⟨_, rfl, rfl, hk, hs, hi, hb, hsent⟩
  · split
    · exact ⟨_, rfl, rfl, hk, hs, hi, hb, hsent⟩
    · exact ⟨_, rfl, rfl, hk, hs, hi, hb, hsent⟩

/-- While `keepRunning` is set and no key is released, `keypad_thread` keeps looping. -/
theorem keypad_thread_idle (n : Nat) (s : State) (hkeep : s.keepRunning ≠ 0) :
    keypad_thread (List.replicate n 0) s = some (s, false) := by
  induction n with
  | zero => simp [keypad_thread, hkeep]
  | succ n ih =>
    simp only [List.replicate_succ, keypad_thread, hkeep, ne_eq, not_false_eq_true, if_true]
    have : keypad_step 0 s = some s := by simp [keypad_step]
    rw [this]
    exact ih

/-- Once `keepRunning` is cleared, `keypad_thread` returns at its next test. -/
theorem keypad_thread_returns (keys : List UInt8) (s : State) (hkeep : s.keepRunning = 0) :
    keypad_thread keys s = some (s, true) := by
  cases keys with
  | nil => simp [keypad_thread, hkeep]
  | cons k ks => simp [keypad_thread, hkeep]

/-- Claim C19 at the failing input: when the first `recv` of the Receive Worker returns 0,
`receive_messages` clears `running` and leaves `keepRunning` at 1; the Send Loop then stops,
but after the shutdown code of `main` the loop condition of `keypad_thread` still holds, and
for any number of scans without a key the thread has not returned, so the join on it does not
complete. -/
theorem connection_loss_leaves_keypad_looping :
    ∃ s1 : State, receive_messages [Server.Recv.closed] State.init = some s1 ∧
      s1.running = 0 ∧ s1.keepRunning = 1 ∧
      (∀ ok, send_loop_step ok s1 = some (s1, false)) ∧
      (main_cleanup s1).keepRunning = 1 ∧
      ∀ n, keypad_thread (List.replicate n 0) (main_cleanup s1) =
        some (main_cleanup s1, false) := by
  obtain ⟨s1, h1, hr, hk, _⟩ := receive_messages_clears_running [Server.Recv.closed]
    State.init (by decide)
  have hk1 : s1.keepRunning = 1 := hk
  refine ⟨s1, h1, hr, hk1, fun ok => by simp [send_loop_step, hr], hk1, fun n => ?_⟩
  exact keypad_thread_idle n (main_cleanup s1) (by
    show s1.keepRunning ≠ 0
    rw [hk1]; decide)

/-- What holds of C19: `receive_messages` always ends by clearing `running`, which stops the
Send Loop, and never writes `keepRunning`; `keypad_thread` returns at its next test if
`keepRunning` had already been cleared, and keeps looping otherwise. -/
theorem shutdown_flags (recvs : List Server.Recv) (s : State) (hrun : s.running ≠ 0) :
    ∃ s1 : State, receive_messages recvs s = some s1 ∧ s1.running = 0 ∧
      s1.keepRunning = s.keepRunning ∧
      (∀ ok, send_loop_step ok s1 = some (s1, false)) ∧
      (s.keepRunning = 0 → ∀ keys, keypad_thread keys (main_cleanup s1) =
        some (main_cleanup s1, true)) ∧
      (s.keepRunning ≠ 0 → ∀ n, keypad_thread (List.replicate n 0) (main_cleanup s1) =
        some (main_cleanup s1, false)) := by
  obtain ⟨s1, h1, hr, hk, _⟩ := receive_messages_clears_running recvs s hrun
  refine ⟨s1, h1, hr, hk, fun ok => by simp [send_loop_step, hr], fun h0 keys => ?_,
    fun h1 n => ?_⟩
  · exact keypad_thread_returns keys (main_cleanup s1) (by
      show s1.keepRunning = 0
      rw [hk]; exact h0)
  · exact keypad_thread_idle n (main_cleanup s1) (by
      show s1.keepRunning ≠ 0
      rw [hk]; exact h1)

/-- The states a list of keys leads to are reachable. -/
theorem keypad_thread_reachable (keys : List UInt8) (s : State) (r : State × Bool)
    (hs : Reachable s) (h : keypad_thread keys s = some r) : Reachable r.1 := by
  induction keys generalizing s with
  | nil => simp only [keypad_thread] at h; cases h; exact hs
  | cons k ks ih =>
    simp only [keypad_thread] at h
    split at h
    · cases hstep : keypad_step k s with
      | none => rw [hstep] at h; cases h
      | some s1 =>
        rw [hstep] at h
        exact ih s1 (Reachable.key k s s1 hs hstep) h
    · cases h; exact hs

/-- Claim C17 amended at the empty buffer with `is_send = 1`: the terminate key leaves buffer
and cursor alone, the digit key `3` is appended. -/
theorem producer_step_while_ready_witness :
    ({ State.init with is_send := 1 } : State).is_send ≠ 0 ∧
    (∃ s1 : State, keypad_step END_SIGN { State.init with is_send := 1 } = some s1 ∧
      s1.input_buf = ({ State.init with is_send := 1 } : State).input_buf ∧
      s1.idx = ({ State.init with is_send := 1 } : State).idx ∧ s1.is_send ≠ 0) ∧
    (∃ s1 : State, keypad_step 51 { State.init with is_send := 1 } = some s1 ∧
      s1.idx = ({ State.init with is_send := 1 } : State).idx + 1 ∧
      (∀ i : Fin 17, ((i : Nat) : Int) = ({ State.init with is_send := 1 } : State).idx →
        s1.input_buf i = 51) ∧
      s1.is_send = ({ State.init with is_send := 1 } : State).is_send) :=
  ⟨by decide,
   (producer_step_while_ready END_SIGN { State.init with is_send := 1 } (by decide)).1
     (Or.inr (Or.inr (Or.inr (by decide)))),
   (producer_step_while_ready 51 { State.init with is_send := 1 } (by decide)).2.1
     (by decide) (by decide) (by decide)⟩

/-- The state after the keys `1`, `2`, `3` is what `keypad_thread` reaches on them. -/
theorem typed_123_eq : keypad_thread [49, 50, 51] State.init = some (typed_123, false) := rfl

/-- Claim C18 at the state reached by the producer on the keys `1`, `2`, `3`: the cursor is 3,
the buffer holds `123` followed by a NUL. -/
theorem coordinator_invariant_witness :
    Reachable typed_123 ∧
    typed_123.idx = 3 ∧ typed_123.input_buf 0 = 49 ∧ typed_123.input_buf 1 = 50 ∧
    typed_123.input_buf 2 = 51 ∧
    0 ≤ typed_123.idx ∧ typed_123.idx ≤ 16 ∧
      (∀ i : Fin 17, ((i : Nat) : Int) < typed_123.idx →
        48 ≤ typed_123.input_buf i ∧ typed_123.input_buf i ≤ 57) ∧
      (∀ i : Fin 17, ((i : Nat) : Int) = typed_123.idx → typed_123.input_buf i = 0) :=
  ⟨keypad_thread_reachable [49, 50, 51] State.init (typed_123, false) Reachable.init typed_123_eq,
    by decide, by decide, by decide, by decide,
    coordinator_invariant typed_123
      (keypad_thread_reachable [49, 50, 51] State.init (typed_123, false) Reachable.init
        typed_123_eq)⟩

end Client
